import Mathlib

/-!
Verification development for the `threeExamples` repository: a shallow
embedding, in Lean 4, of the parts of the code that the specification's
claims are about.

The embedding covers:
* `src/shared/PhysicsEngine.ts` — the adapter around the Rapier rigid-body
  world (`PhysicsEngine`);
* the hadron-collider scene `ThreeSceneC` — its phase state machine
  (`collisionPhase`, `phaseDurations`, `updatePhysics`, `advancePhase`,
  `beginNewCycle`);
* `ThreeSceneD.fetchLotteryData` and `LotteryAnalyzer.fetchHistoricalData`
  — the lottery fetch paths with their fallback behaviour;
* `ThreeSceneE` — ship / asteroid model-load fallbacks;
* `src/shared/ShaderManager.ts` — the shader registry, `find`'s deep copy
  of uniforms, and `createMaterial`'s override mutation, modelled with an
  explicit heap of uniform wrappers and mutable value objects so that
  aliasing between the registry and the values handed to callers is
  expressible.

Scalar values (positions, velocities, masses, durations) are modelled as
rationals: the code only stores, copies and compares them; no claim
depends on floating-point rounding.  Fallible operations (`throw` in the
TypeScript) are modelled with `Except String`.  Log output is irrelevant
to every claim and is dropped.
-/

namespace ThreeExamples

/-- A 3-component vector (mirrors `THREE.Vector3` / `RAPIER.Vector3` where
only the stored components matter). -/
structure Vec3 where
  x : ℚ
  y : ℚ
  z : ℚ
deriving DecidableEq, Repr

/-- A quaternion (mirrors `THREE.Quaternion` / Rapier's rotation). -/
structure Quat where
  x : ℚ
  y : ℚ
  z : ℚ
  w : ℚ
deriving DecidableEq, Repr

/-- The identity quaternion: the rotation of a freshly created rigid body. -/
def Quat.identity : Quat := ⟨0, 0, 0, 1⟩

/-- Rigid-body type, from `RAPIER.RigidBodyDesc.fixed()` / `.dynamic()`. -/
inductive BodyType where
  | fixed
  | dynamic
deriving DecidableEq, Repr

/-- The state of one rigid body inside the Rapier world: translation,
rotation, linear and angular velocity. -/
structure RigidBody where
  bodyType : BodyType
  translation : Vec3
  rotation : Quat
  linvel : Vec3
  angvel : Vec3
deriving DecidableEq, Repr

/-- Collider shape, from `RAPIER.ColliderDesc.cuboid` / `.ball`. -/
inductive ColliderShape where
  | cuboid (hx hy hz : ℚ)
  | ball (radius : ℚ)
deriving DecidableEq, Repr

/-- A collider attached to a rigid body (parent is the body's handle). -/
structure Collider where
  shape : ColliderShape
  parent : Nat
  mass : Option ℚ
  restitution : Option ℚ
  friction : Option ℚ
deriving DecidableEq, Repr

/-- The Rapier world: gravity, the rigid-body table keyed by handle, the
collider list, and the next fresh handle. -/
structure World where
  gravity : Vec3
  rigidBodies : List (Nat × RigidBody)
  colliders : List Collider
  nextHandle : Nat
deriving DecidableEq, Repr

/-- `world.step()` as seen through the adapter: the physics tick updates
every rigid body in place (parametrised by the integrator `f`); the set of
handles is unchanged. -/
def World.stepWith (w : World) (f : Nat → RigidBody → RigidBody) : World :=
  { w with rigidBodies := w.rigidBodies.map (fun p => (p.1, f p.1 p.2)) }

/-- A `THREE.Mesh`'s transform state: the fields `PhysicsEngine.step`
writes.  Each physics body owns the mesh reference it was registered
with; the embedding stores the driven transform inline. -/
structure Mesh where
  position : Vec3
  quaternion : Quat
deriving DecidableEq, Repr

/-- `PhysicsBody` from `PhysicsEngine.ts`: the rigid-body handle, the mesh
it drives, and its id. -/
structure PhysicsBody where
  rigidBody : Nat
  mesh : Mesh
  id : Nat
deriving DecidableEq, Repr

/-- The `PhysicsEngine` adapter state: optional world, the body map
(association list keyed by body id, insertion order), the next fresh body
id, and the `initialized` flag. -/
structure PhysicsEngine where
  world : Option World
  bodies : List (Nat × PhysicsBody)
  nextBodyId : Nat
  initialized : Bool
deriving DecidableEq, Repr

namespace PhysicsEngine

/-- A freshly constructed `new PhysicsEngine()`. -/
def mk0 : PhysicsEngine :=
  { world := none, bodies := [], nextBodyId := 0, initialized := false }

/-- `init()`.  `rapierOk` is whether `RAPIER.init()` succeeds.  On failure
the error is logged and re-thrown (`throw error`).  On success the world
is created with gravity `(0, -2, 0)`. -/
def init (e : PhysicsEngine) (rapierOk : Bool) : Except String PhysicsEngine :=
  if e.initialized then .ok e
  else if rapierOk then
    .ok { e with
      world := some { gravity := ⟨0, -2, 0⟩, rigidBodies := [], colliders := [],
                      nextHandle := 0 },
      initialized := true }
  else
    .error "Failed to initialize physics engine"

/-- `addStaticBox(mesh, position, size)`: throws when the engine is not
initialized; otherwise creates a fixed rigid body at `position` with a
cuboid collider of half-extents `size / 2`, registers it under a fresh
id, and returns that id. -/
def addStaticBox (e : PhysicsEngine) (mesh : Mesh) (position size : Vec3) :
    Except String (PhysicsEngine × Nat) :=
  match e.world with
  | none => .error "Physics engine not initialized"
  | some w =>
    if !e.initialized then .error "Physics engine not initialized"
    else
      let rb : RigidBody :=
        { bodyType := .fixed, translation := position, rotation := Quat.identity,
          linvel := ⟨0, 0, 0⟩, angvel := ⟨0, 0, 0⟩ }
      let handle := w.nextHandle
      let col : Collider :=
        { shape := .cuboid (size.x / 2) (size.y / 2) (size.z / 2),
          parent := handle, mass := none, restitution := none, friction := none }
      let w' : World :=
        { w with rigidBodies := w.rigidBodies ++ [(handle, rb)],
                 colliders := w.colliders ++ [col],
                 nextHandle := handle + 1 }
      let id := e.nextBodyId
      .ok ({ e with
              world := some w',
              bodies := e.bodies ++ [(id, { rigidBody := handle, mesh := mesh, id := id })],
              nextBodyId := id + 1 }, id)

/-- `addDynamicSphere(mesh, position, radius, mass = 1.0, restitution = 0.8)`:
throws when not initialized; otherwise creates a dynamic rigid body at
`position` with a ball collider (mass, restitution, friction 0.3),
registers it under a fresh id, and returns that id. -/
def addDynamicSphere (e : PhysicsEngine) (mesh : Mesh) (position : Vec3)
    (radius : ℚ) (mass : ℚ := 1) (restitution : ℚ := 4/5) :
    Except String (PhysicsEngine × Nat) :=
  match e.world with
  | none => .error "Physics engine not initialized"
  | some w =>
    if !e.initialized then .error "Physics engine not initialized"
    else
      let rb : RigidBody :=
        { bodyType := .dynamic, translation := position, rotation := Quat.identity,
          linvel := ⟨0, 0, 0⟩, angvel := ⟨0, 0, 0⟩ }
      let handle := w.nextHandle
      let col : Collider :=
        { shape := .ball radius, parent := handle,
          mass := some mass, restitution := some restitution, friction := some (3/10) }
      let w' : World :=
        { w with rigidBodies := w.rigidBodies ++ [(handle, rb)],
                 colliders := w.colliders ++ [col],
                 nextHandle := handle + 1 }
      let id := e.nextBodyId
      .ok ({ e with
              world := some w',
              bodies := e.bodies ++ [(id, { rigidBody := handle, mesh := mesh, id := id })],
              nextBodyId := id + 1 }, id)

/-- Update the rigid body at `handle` in the world, if the engine has a
world (helper shared by the set-* operations below). -/
def updateRigidBody (e : PhysicsEngine) (handle : Nat)
    (f : RigidBody → RigidBody) : PhysicsEngine :=
  match e.world with
  | none => e
  | some w =>
    let w' : World :=
      { w with rigidBodies :=
          w.rigidBodies.map (fun p => if p.1 = handle then (p.1, f p.2) else p) }
    { e with world := some w' }

/-- `setVelocity(bodyId, velocity)`: looks up the body; if absent, logs a
warning and returns; otherwise sets the rigid body's linear velocity. -/
def setVelocity (e : PhysicsEngine) (bodyId : Nat) (velocity : Vec3) : PhysicsEngine :=
  match e.bodies.lookup bodyId with
  | none => e
  | some b => e.updateRigidBody b.rigidBody (fun rb => { rb with linvel := velocity })

/-- `setPosition(bodyId, position)`: no-op when the body is absent;
otherwise sets the rigid body's translation. -/
def setPosition (e : PhysicsEngine) (bodyId : Nat) (position : Vec3) : PhysicsEngine :=
  match e.bodies.lookup bodyId with
  | none => e
  | some b => e.updateRigidBody b.rigidBody (fun rb => { rb with translation := position })

/-- `setAngularVelocity(bodyId, angularVelocity)`: no-op when the body is
absent; otherwise sets the rigid body's angular velocity. -/
def setAngularVelocity (e : PhysicsEngine) (bodyId : Nat) (angularVelocity : Vec3) :
    PhysicsEngine :=
  match e.bodies.lookup bodyId with
  | none => e
  | some b => e.updateRigidBody b.rigidBody (fun rb => { rb with angvel := angularVelocity })

/-- `addImpulse(bodyId, impulse)`: no-op when the body is absent; otherwise
applies the impulse to the rigid body (`applyImpulse`; the resulting
velocity change is folded into the abstract `applyImpulseTo`). -/
def applyImpulseTo (rb : RigidBody) (impulse : Vec3) : RigidBody :=
  { rb with linvel := ⟨rb.linvel.x + impulse.x, rb.linvel.y + impulse.y,
                       rb.linvel.z + impulse.z⟩ }

def addImpulse (e : PhysicsEngine) (bodyId : Nat) (impulse : Vec3) : PhysicsEngine :=
  match e.bodies.lookup bodyId with
  | none => e
  | some b => e.updateRigidBody b.rigidBody (fun rb => applyImpulseTo rb impulse)

/-- `step(deltaTime)`: returns immediately unless the world exists and the
engine is initialized; otherwise steps the world (integrator `f`) and then
overwrites every registered body's mesh position with the rigid body's
translation and its mesh quaternion with the rigid body's rotation.
`deltaTime` is accepted and unused, as in the source. -/
def step (e : PhysicsEngine) (deltaTime : ℚ) (f : Nat → RigidBody → RigidBody) :
    PhysicsEngine :=
  match e.world with
  | none => e
  | some w =>
    if !e.initialized then e
    else
      let _ := deltaTime
      let w' := w.stepWith f
      { e with
        world := some w',
        bodies := e.bodies.map (fun p =>
          match w'.rigidBodies.lookup p.2.rigidBody with
          | some rb => (p.1, { p.2 with mesh := { position := rb.translation,
                                                  quaternion := rb.rotation } })
          | none => p) }

/-- `removeBody(bodyId)`: returns when the body is absent or the world is
gone; otherwise removes the rigid body from the world and the entry from
the body map. -/
def removeBody (e : PhysicsEngine) (bodyId : Nat) : PhysicsEngine :=
  match e.bodies.lookup bodyId with
  | none => e
  | some b =>
    match e.world with
    | none => e
    | some w =>
      { e with
        world := some { w with rigidBodies := w.rigidBodies.filter (fun p => p.1 ≠ b.rigidBody),
                               colliders := w.colliders.filter (fun c => c.parent ≠ b.rigidBody) },
        bodies := e.bodies.filter (fun p => p.1 ≠ bodyId) }

/-- `clearAllBodies()`: removes every body currently in the map. -/
def clearAllBodies (e : PhysicsEngine) : PhysicsEngine :=
  (e.bodies.map Prod.fst).foldl removeBody e

/-- `getVelocity(bodyId)`: `null` when absent, else the linear velocity. -/
def getVelocity (e : PhysicsEngine) (bodyId : Nat) : Option Vec3 :=
  match e.bodies.lookup bodyId with
  | none => none
  | some b =>
    match e.world with
    | none => none
    | some w => (w.rigidBodies.lookup b.rigidBody).map (·.linvel)

/-- `getPosition(bodyId)`: `null` when absent, else the translation. -/
def getPosition (e : PhysicsEngine) (bodyId : Nat) : Option Vec3 :=
  match e.bodies.lookup bodyId with
  | none => none
  | some b =>
    match e.world with
    | none => none
    | some w => (w.rigidBodies.lookup b.rigidBody).map (·.translation)

/-- `dispose()`: if a world exists, clears all bodies and frees the world;
always resets `initialized`. -/
def dispose (e : PhysicsEngine) : PhysicsEngine :=
  match e.world with
  | none => { e with initialized := false }
  | some _ =>
    let e' := e.clearAllBodies
    { e' with world := none, initialized := false }

end PhysicsEngine

/-! ### Association-list helper lemmas -/

theorem lookup_isSome_iff {α β : Type} [DecidableEq α] [BEq α] [LawfulBEq α] (l : List (α × β)) (k : α) :
    (l.lookup k).isSome ↔ k ∈ l.map Prod.fst := by
  induction l with
  | nil => simp [List.lookup]
  | cons p t ih =>
    by_cases h : k = p.1
    · simp [List.lookup, h]
    · have hb : (k == p.1) = false := beq_eq_false_iff_ne.mpr h
      simp [List.lookup, hb, h, ih]

theorem lookup_eq_none_iff {α β : Type} [DecidableEq α] [BEq α] [LawfulBEq α] (l : List (α × β)) (k : α) :
    l.lookup k = none ↔ k ∉ l.map Prod.fst := by
  rw [← lookup_isSome_iff, ← Option.not_isSome_iff_eq_none]

theorem mem_of_lookup_eq_some {α β : Type} [DecidableEq α] [BEq α] [LawfulBEq α] {l : List (α × β)} {k : α} {v : β}
    (h : l.lookup k = some v) : (k, v) ∈ l := by
  induction l with
  | nil => simp [List.lookup] at h
  | cons p t ih =>
    by_cases hk : k = p.1
    · subst hk
      simp only [List.lookup, beq_self_eq_true] at h
      cases h
      exact List.mem_cons_self _ _
    · have hb : (k == p.1) = false := beq_eq_false_iff_ne.mpr hk
      simp only [List.lookup, hb] at h
      exact List.mem_cons_of_mem _ (ih h)

theorem lookup_append_left {α β : Type} [DecidableEq α] [BEq α] [LawfulBEq α] {l : List (α × β)} (l' : List (α × β))
    {k : α} {v : β} (h : l.lookup k = some v) : (l ++ l').lookup k = some v := by
  induction l with
  | nil => simp [List.lookup] at h
  | cons p t ih =>
    by_cases hk : k = p.1
    · simp_all [List.lookup, hk]
    · have hb : (k == p.1) = false := beq_eq_false_iff_ne.mpr hk
      simp only [List.cons_append, List.lookup, hb] at h ⊢
      exact ih h

theorem lookup_append_right {α β : Type} [DecidableEq α] [BEq α] [LawfulBEq α] {l : List (α × β)} (l' : List (α × β))
    {k : α} (h : l.lookup k = none) : (l ++ l').lookup k = l'.lookup k := by
  induction l with
  | nil => simp
  | cons p t ih =>
    by_cases hk : k = p.1
    · simp_all [List.lookup, hk]
    · have hb : (k == p.1) = false := beq_eq_false_iff_ne.mpr hk
      simp only [List.cons_append, List.lookup, hb] at h ⊢
      exact ih h

/-- A key-preserving per-entry update does not change the key list. -/
theorem keys_map_update {α β : Type} [DecidableEq α] [BEq α] [LawfulBEq α] (l : List (α × β)) (f : α → β → β) :
    (l.map (fun p => (p.1, f p.1 p.2))).map Prod.fst = l.map Prod.fst := by
  induction l with
  | nil => rfl
  | cons p t ih => simp [ih]

/-- Looking up after a key-preserving per-entry update. -/
theorem lookup_map_update {α β : Type} [DecidableEq α] [BEq α] [LawfulBEq α] (l : List (α × β)) (f : α → β → β) (k : α) :
    (l.map (fun p => (p.1, f p.1 p.2))).lookup k = (l.lookup k).map (f k) := by
  induction l with
  | nil => simp [List.lookup]
  | cons p t ih =>
    by_cases hk : k = p.1
    · subst hk; simp [List.lookup]
    · have hb : (k == p.1) = false := beq_eq_false_iff_ne.mpr hk
      simp only [List.map_cons, List.lookup, hb]
      exact ih

theorem lookup_filter_ne {β : Type} (l : List (Nat × β)) (h k : Nat) (hk : k ≠ h) :
    (l.filter (fun p => p.1 ≠ h)).lookup k = l.lookup k := by
  induction l with
  | nil => simp
  | cons p t ih =>
    by_cases hp : p.1 = h
    · rw [List.filter_cons_of_neg (by simpa using hp)]
      have hkp : k ≠ p.1 := by rw [hp]; exact hk
      have hb : (k == p.1) = false := beq_eq_false_iff_ne.mpr hkp
      simp only [List.lookup, hb]
      exact ih
    · rw [List.filter_cons_of_pos (by simpa using hp)]
      by_cases hkp : k = p.1
      · simp [List.lookup, hkp]
      · have hb : (k == p.1) = false := beq_eq_false_iff_ne.mpr hkp
        simp only [List.lookup, hb]
        exact ih

/-- Looking up a different key after the `updateRigidBody`-style in-place
update of one key. -/
theorem lookup_update_ne {α β : Type} [DecidableEq α] [BEq α] [LawfulBEq α] (l : List (α × β)) (h k : α) (f : β → β)
    (hk : k ≠ h) :
    (l.map (fun p => if p.1 = h then (p.1, f p.2) else p)).lookup k = l.lookup k := by
  induction l with
  | nil => rfl
  | cons p t ih =>
    rw [List.map_cons]
    by_cases hp : p.1 = h
    · rw [if_pos hp]
      have hk1 : (k == p.1) = false := beq_eq_false_iff_ne.mpr (by rw [hp]; exact hk)
      simp only [List.lookup, hk1]
      exact ih
    · rw [if_neg hp]
      by_cases hk1 : k = p.1
      · simp [List.lookup, hk1]
      · have hb : (k == p.1) = false := beq_eq_false_iff_ne.mpr hk1
        simp only [List.lookup, hb]
        exact ih

/-- Looking up the updated key after the `updateRigidBody`-style in-place
update. -/
theorem lookup_update_eq {α β : Type} [DecidableEq α] [BEq α] [LawfulBEq α] (l : List (α × β)) (h : α) (f : β → β) :
    (l.map (fun p => if p.1 = h then (p.1, f p.2) else p)).lookup h
      = (l.lookup h).map f := by
  induction l with
  | nil => rfl
  | cons p t ih =>
    rw [List.map_cons]
    by_cases hp : p.1 = h
    · rw [if_pos hp]
      subst hp
      simp [List.lookup]
    · rw [if_neg hp]
      have hb : (h == p.1) = false := beq_eq_false_iff_ne.mpr (fun e => hp e.symm)
      simp only [List.lookup, hb]
      exact ih

/-- The `updateRigidBody`-style update does not change the key list. -/
theorem keys_update_list {α β : Type} [DecidableEq α] [BEq α] [LawfulBEq α] (l : List (α × β)) (h : α) (f : β → β) :
    (l.map (fun p => if p.1 = h then (p.1, f p.2) else p)).map Prod.fst
      = l.map Prod.fst := by
  induction l with
  | nil => rfl
  | cons p t ih =>
    by_cases hp : p.1 = h <;> simp [hp, ih]

/-! ### Engine operations as a step relation, and reachable engine states -/

namespace PhysicsEngine

/-- One public operation of the physics adapter, as a relation between the
engine state before and after the call (for fallible operations, only the
success continuation produces a next state; on `throw` the caller's
engine reference is unchanged, which is covered by reflexivity of the
reachability closure). -/
inductive Step : PhysicsEngine → PhysicsEngine → Prop where
  | init (e e' : PhysicsEngine) (ok : Bool) :
      e.init ok = .ok e' → Step e e'
  | addStaticBox (e e' : PhysicsEngine) (mesh : Mesh) (position size : Vec3) (id : Nat) :
      e.addStaticBox mesh position size = .ok (e', id) → Step e e'
  | addDynamicSphere (e e' : PhysicsEngine) (mesh : Mesh) (position : Vec3)
      (radius mass restitution : ℚ) (id : Nat) :
      e.addDynamicSphere mesh position radius mass restitution = .ok (e', id) → Step e e'
  | setVelocity (e : PhysicsEngine) (bodyId : Nat) (v : Vec3) :
      Step e (e.setVelocity bodyId v)
  | setPosition (e : PhysicsEngine) (bodyId : Nat) (p : Vec3) :
      Step e (e.setPosition bodyId p)
  | setAngularVelocity (e : PhysicsEngine) (bodyId : Nat) (v : Vec3) :
      Step e (e.setAngularVelocity bodyId v)
  | addImpulse (e : PhysicsEngine) (bodyId : Nat) (i : Vec3) :
      Step e (e.addImpulse bodyId i)
  | step (e : PhysicsEngine) (dt : ℚ) (f : Nat → RigidBody → RigidBody) :
      Step e (e.step dt f)
  | removeBody (e : PhysicsEngine) (bodyId : Nat) :
      Step e (e.removeBody bodyId)
  | clearAllBodies (e : PhysicsEngine) :
      Step e e.clearAllBodies
  | dispose (e : PhysicsEngine) :
      Step e e.dispose

/-- Engine states reachable from `new PhysicsEngine()` by public calls. -/
def Reachable (e : PhysicsEngine) : Prop :=
  Relation.ReflTransGen Step mk0 e

/-- The structural invariants of the adapter. -/
structure WF (e : PhysicsEngine) : Prop where
  world_iff : e.world.isSome ↔ e.initialized = true
  empty_of_not_init : e.initialized = false → e.bodies = []
  ids_lt : ∀ p ∈ e.bodies, p.1 < e.nextBodyId
  id_field : ∀ p ∈ e.bodies, p.2.id = p.1
  handles_valid : ∀ w, e.world = some w →
    ∀ p ∈ e.bodies, (w.rigidBodies.lookup p.2.rigidBody).isSome
  handles_lt : ∀ w, e.world = some w →
    ∀ p ∈ e.bodies, p.2.rigidBody < w.nextHandle
  handles_nodup : (e.bodies.map (fun p => p.2.rigidBody)).Nodup
  world_keys_lt : ∀ w, e.world = some w →
    ∀ q ∈ w.rigidBodies, q.1 < w.nextHandle

theorem wf_mk0 : WF mk0 := by
  constructor <;> simp [mk0]

/-- The common success shape of `addStaticBox` / `addDynamicSphere`
preserves the invariants and hands out the id `e.nextBodyId`. -/
theorem wf_extend {e : PhysicsEngine} {w : World} (hw : e.world = some w)
    (_hi : e.initialized = true) (hWF : WF e) (rb : RigidBody) (cols : List Collider)
    (mesh : Mesh) :
    WF { world := some { w with
            rigidBodies := w.rigidBodies ++ [(w.nextHandle, rb)],
            colliders := cols,
            nextHandle := w.nextHandle + 1 },
         bodies := e.bodies ++
            [(e.nextBodyId, { rigidBody := w.nextHandle, mesh := mesh, id := e.nextBodyId })],
         nextBodyId := e.nextBodyId + 1,
         initialized := true } := by
  obtain ⟨wiff, emp, idslt, idf, hval, hlt, hnd, wklt⟩ := hWF
  constructor
  · simp
  · intro h; simp at h
  · intro p hp
    rcases List.mem_append.mp hp with h | h
    · exact Nat.lt_succ_of_lt (idslt p h)
    · simp at h; subst h; exact Nat.lt_succ_self _
  · intro p hp
    rcases List.mem_append.mp hp with h | h
    · exact idf p h
    · simp at h; subst h; rfl
  · intro w' hw' p hp
    simp only [Option.some.injEq] at hw'
    subst hw'
    rcases List.mem_append.mp hp with h | h
    · have := hval w hw p h
      obtain ⟨v, hv⟩ := Option.isSome_iff_exists.mp this
      simp only
      rw [lookup_append_left _ hv]
      rfl
    · simp at h; subst h
      simp only
      have hnone : w.rigidBodies.lookup w.nextHandle = none := by
        rw [lookup_eq_none_iff]
        intro hmem
        obtain ⟨q, hq, hqk⟩ := List.mem_map.mp hmem
        exact absurd (hqk ▸ wklt w hw q hq) (lt_irrefl _)
      rw [lookup_append_right _ hnone]
      simp [List.lookup]
  · intro w' hw' p hp
    simp only [Option.some.injEq] at hw'
    subst hw'
    rcases List.mem_append.mp hp with h | h
    · exact Nat.lt_succ_of_lt (hlt w hw p h)
    · simp at h; subst h; exact Nat.lt_succ_self _
  · simp only [List.map_append, List.map_cons, List.map_nil]
    rw [List.nodup_append]
    refine ⟨hnd, List.nodup_singleton _, ?_⟩
    intro a ha hb
    simp only [List.mem_singleton] at hb
    subst hb
    obtain ⟨q, hq, hqk⟩ := List.mem_map.mp ha
    exact absurd (hqk ▸ hlt w hw q hq) (lt_irrefl _)
  · intro w' hw' q hq
    simp only [Option.some.injEq] at hw'
    subst hw'
    rcases List.mem_append.mp hq with h | h
    · exact Nat.lt_succ_of_lt (wklt w hw q h)
    · simp at h; subst h; exact Nat.lt_succ_self _

theorem wf_init {e e' : PhysicsEngine} {ok : Bool} (hWF : WF e)
    (h : e.init ok = .ok e') : WF e' := by
  unfold init at h
  by_cases hi : e.initialized
  · rw [if_pos hi] at h
    cases h
    exact hWF
  · rw [if_neg hi] at h
    cases ok with
    | true =>
      simp only [if_true] at h
      cases h
      obtain ⟨wiff, emp, idslt, idf, hval, hlt, hnd, wklt⟩ := hWF
      have hb : e.bodies = [] := emp (by simpa using hi)
      constructor <;> simp_all
    | false => simp at h

theorem wf_addStaticBox {e e' : PhysicsEngine} {mesh : Mesh} {position size : Vec3}
    {id : Nat} (hWF : WF e) (h : e.addStaticBox mesh position size = .ok (e', id)) :
    WF e' ∧ id = e.nextBodyId ∧ e'.nextBodyId = e.nextBodyId + 1 ∧
    ∃ w, e.world = some w ∧
      e'.bodies = e.bodies ++
        [(id, { rigidBody := w.nextHandle, mesh := mesh, id := id })] := by
  unfold addStaticBox at h
  cases hw : e.world with
  | none => rw [hw] at h; simp at h
  | some w =>
    rw [hw] at h
    by_cases hi : e.initialized
    · simp only [hi, Bool.not_true, Bool.false_eq_true, if_false, Except.ok.injEq,
        Prod.mk.injEq] at h
      obtain ⟨he, hid⟩ := h
      subst he; subst hid
      exact ⟨wf_extend hw hi hWF _ _ _, rfl, rfl, w, rfl, rfl⟩
    · simp [Bool.not_eq_true] at hi
      simp [hi] at h

theorem wf_addDynamicSphere {e e' : PhysicsEngine} {mesh : Mesh} {position : Vec3}
    {radius mass restitution : ℚ} {id : Nat} (hWF : WF e)
    (h : e.addDynamicSphere mesh position radius mass restitution = .ok (e', id)) :
    WF e' ∧ id = e.nextBodyId ∧ e'.nextBodyId = e.nextBodyId + 1 ∧
    ∃ w, e.world = some w ∧
      e'.bodies = e.bodies ++
        [(id, { rigidBody := w.nextHandle, mesh := mesh, id := id })] := by
  unfold addDynamicSphere at h
  cases hw : e.world with
  | none => rw [hw] at h; simp at h
  | some w =>
    rw [hw] at h
    by_cases hi : e.initialized
    · simp only [hi, Bool.not_true, Bool.false_eq_true, if_false, Except.ok.injEq,
        Prod.mk.injEq] at h
      obtain ⟨he, hid⟩ := h
      subst he; subst hid
      exact ⟨wf_extend hw hi hWF _ _ _, rfl, rfl, w, rfl, rfl⟩
    · simp [Bool.not_eq_true] at hi
      simp [hi] at h

/-- `updateRigidBody` preserves the invariants: the body map is untouched
and the world's key structure is preserved. -/
theorem wf_updateRigidBody {e : PhysicsEngine} (hWF : WF e) (handle : Nat)
    (f : RigidBody → RigidBody) : WF (e.updateRigidBody handle f) := by
  obtain ⟨wiff, emp, idslt, idf, hval, hlt, hnd, wklt⟩ := hWF
  unfold updateRigidBody
  cases hw : e.world with
  | none => exact ⟨wiff, emp, idslt, idf, hval, hlt, hnd, wklt⟩
  | some w =>
    have hi : e.initialized = true := wiff.mp (by rw [hw]; rfl)
    refine ⟨by simp [hi], ?_, idslt, idf, ?_, ?_, hnd, ?_⟩
    · intro h0
      simp only [hi] at h0
      exact absurd h0 (by decide)
    · intro w' hw' p hp
      simp only [Option.some.injEq] at hw'
      subst hw'
      simp only
      by_cases hk : p.2.rigidBody = handle
      · rw [hk, lookup_update_eq]
        have := hval w hw p hp
        rw [hk] at this
        cases hcase : w.rigidBodies.lookup handle with
        | none => rw [hcase] at this; simp at this
        | some rb => simp [hcase]
      · rw [lookup_update_ne _ _ _ _ hk]
        exact hval w hw p hp
    · intro w' hw' p hp
      simp only [Option.some.injEq] at hw'
      subst hw'
      exact hlt w hw p hp
    · intro w' hw' q hq
      simp only [Option.some.injEq] at hw'
      subst hw'
      simp only at hq
      obtain ⟨r, hr, hrq⟩ := List.mem_map.mp hq
      have hq1 : q.1 = r.1 := by
        by_cases hcase : r.1 = handle
        · rw [if_pos hcase] at hrq; rw [← hrq]
        · rw [if_neg hcase] at hrq; rw [← hrq]
      rw [hq1]
      exact wklt w hw r hr

theorem wf_setVelocity {e : PhysicsEngine} (hWF : WF e) (bodyId : Nat) (v : Vec3) :
    WF (e.setVelocity bodyId v) := by
  unfold setVelocity
  cases e.bodies.lookup bodyId with
  | none => exact hWF
  | some b => exact wf_updateRigidBody hWF _ _

theorem wf_setPosition {e : PhysicsEngine} (hWF : WF e) (bodyId : Nat) (p : Vec3) :
    WF (e.setPosition bodyId p) := by
  unfold setPosition
  cases e.bodies.lookup bodyId with
  | none => exact hWF
  | some b => exact wf_updateRigidBody hWF _ _

theorem wf_setAngularVelocity {e : PhysicsEngine} (hWF : WF e) (bodyId : Nat) (v : Vec3) :
    WF (e.setAngularVelocity bodyId v) := by
  unfold setAngularVelocity
  cases e.bodies.lookup bodyId with
  | none => exact hWF
  | some b => exact wf_updateRigidBody hWF _ _

theorem wf_addImpulse {e : PhysicsEngine} (hWF : WF e) (bodyId : Nat) (i : Vec3) :
    WF (e.addImpulse bodyId i) := by
  unfold addImpulse
  cases e.bodies.lookup bodyId with
  | none => exact hWF
  | some b => exact wf_updateRigidBody hWF _ _

theorem wf_step {e : PhysicsEngine} (hWF : WF e) (dt : ℚ)
    (f : Nat → RigidBody → RigidBody) : WF (e.step dt f) := by
  obtain ⟨wiff, emp, idslt, idf, hval, hlt, hnd, wklt⟩ := hWF
  unfold step
  cases hw : e.world with
  | none => exact ⟨wiff, emp, idslt, idf, hval, hlt, hnd, wklt⟩
  | some w =>
    have hi : e.initialized = true := wiff.mp (by rw [hw]; rfl)
    rw [hi]
    simp only [Bool.not_true, Bool.false_eq_true, if_false]
    have hg1 : ∀ p : Nat × PhysicsBody,
        ((match (w.stepWith f).rigidBodies.lookup p.2.rigidBody with
          | some rb => (p.1, { p.2 with mesh := { position := rb.translation,
                                                  quaternion := rb.rotation } })
          | none => p) : Nat × PhysicsBody).1 = p.1 := by
      intro p
      cases (w.stepWith f).rigidBodies.lookup p.2.rigidBody <;> rfl
    have hg2 : ∀ p : Nat × PhysicsBody,
        ((match (w.stepWith f).rigidBodies.lookup p.2.rigidBody with
          | some rb => (p.1, { p.2 with mesh := { position := rb.translation,
                                                  quaternion := rb.rotation } })
          | none => p) : Nat × PhysicsBody).2.rigidBody = p.2.rigidBody := by
      intro p
      cases (w.stepWith f).rigidBodies.lookup p.2.rigidBody <;> rfl
    have hg3 : ∀ p : Nat × PhysicsBody,
        ((match (w.stepWith f).rigidBodies.lookup p.2.rigidBody with
          | some rb => (p.1, { p.2 with mesh := { position := rb.translation,
                                                  quaternion := rb.rotation } })
          | none => p) : Nat × PhysicsBody).2.id = p.2.id := by
      intro p
      cases (w.stepWith f).rigidBodies.lookup p.2.rigidBody <;> rfl
    refine ⟨by simp [hi], ?_, ?_, ?_, ?_, ?_, ?_, ?_⟩
    · intro h0
      simp only [hi] at h0
      exact absurd h0 (by decide)
    · intro p hp
      simp only at hp
      obtain ⟨q, hq, hqe⟩ := List.mem_map.mp hp
      have : p.1 = q.1 := by rw [← hqe]; exact hg1 q
      rw [this]
      exact idslt q hq
    · intro p hp
      simp only at hp
      obtain ⟨q, hq, hqe⟩ := List.mem_map.mp hp
      have h1 : p.1 = q.1 := by rw [← hqe]; exact hg1 q
      have h2 : p.2.id = q.2.id := by rw [← hqe]; exact hg3 q
      rw [h1, h2]
      exact idf q hq
    · intro w2 hw2 p hp
      simp only [Option.some.injEq] at hw2
      subst hw2
      simp only at hp
      obtain ⟨q, hq, hqe⟩ := List.mem_map.mp hp
      have h2 : p.2.rigidBody = q.2.rigidBody := by rw [← hqe]; exact hg2 q
      rw [h2]
      simp only [World.stepWith]
      rw [lookup_map_update]
      have := hval w hw q hq
      cases hcase : w.rigidBodies.lookup q.2.rigidBody with
      | none => rw [hcase] at this; simp at this
      | some rb => simp [hcase]
    · intro w2 hw2 p hp
      simp only [Option.some.injEq] at hw2
      subst hw2
      simp only at hp
      obtain ⟨q, hq, hqe⟩ := List.mem_map.mp hp
      have h2 : p.2.rigidBody = q.2.rigidBody := by rw [← hqe]; exact hg2 q
      rw [h2]
      simp only [World.stepWith]
      exact hlt w hw q hq
    · simp only [List.map_map]
      have : ((fun p : Nat × PhysicsBody => p.2.rigidBody) ∘ (fun p =>
          match (w.stepWith f).rigidBodies.lookup p.2.rigidBody with
          | some rb => (p.1, { p.2 with mesh := { position := rb.translation,
                                                  quaternion := rb.rotation } })
          | none => p)) = fun p : Nat × PhysicsBody => p.2.rigidBody := by
        funext p
        exact hg2 p
      rw [this]
      exact hnd
    · intro w2 hw2 q hq
      simp only [Option.some.injEq] at hw2
      subst hw2
      simp only [World.stepWith] at hq ⊢
      obtain ⟨r, hr, hrq⟩ := List.mem_map.mp hq
      have : q.1 = r.1 := by rw [← hrq]
      rw [this]
      exact wklt w hw r hr

theorem wf_removeBody {e : PhysicsEngine} (hWF : WF e) (bodyId : Nat) :
    WF (e.removeBody bodyId) := by
  obtain ⟨wiff, emp, idslt, idf, hval, hlt, hnd, wklt⟩ := hWF
  unfold removeBody
  cases hb : e.bodies.lookup bodyId with
  | none => exact ⟨wiff, emp, idslt, idf, hval, hlt, hnd, wklt⟩
  | some b =>
    cases hw : e.world with
    | none => exact ⟨wiff, emp, idslt, idf, hval, hlt, hnd, wklt⟩
    | some w =>
      have hi : e.initialized = true := wiff.mp (by rw [hw]; rfl)
      have hmem : (bodyId, b) ∈ e.bodies := mem_of_lookup_eq_some hb
      refine ⟨by simp [hi], ?_, ?_, ?_, ?_, ?_, ?_, ?_⟩
      · intro h0
        simp only [hi] at h0
        exact absurd h0 (by decide)
      · intro p hp
        exact idslt p (List.mem_of_mem_filter hp)
      · intro p hp
        exact idf p (List.mem_of_mem_filter hp)
      · intro w2 hw2 p hp
        simp only [Option.some.injEq] at hw2
        subst hw2
        have hpe : p ∈ e.bodies := List.mem_of_mem_filter hp
        have hpne : p.1 ≠ bodyId := by simpa using List.of_mem_filter hp
        have hhne : p.2.rigidBody ≠ b.rigidBody := by
          intro hcontra
          have := List.inj_on_of_nodup_map hnd hpe hmem hcontra
          exact hpne (by rw [this])
        simp only
        rw [lookup_filter_ne _ _ _ hhne]
        exact hval w hw p hpe
      · intro w2 hw2 p hp
        simp only [Option.some.injEq] at hw2
        subst hw2
        exact hlt w hw p (List.mem_of_mem_filter hp)
      · exact List.Nodup.sublist (List.Sublist.map _ (List.filter_sublist _)) hnd
      · intro w2 hw2 q hq
        simp only [Option.some.injEq] at hw2
        subst hw2
        simp only at hq
        exact wklt w hw q (List.mem_of_mem_filter hq)

theorem wf_foldl_remove {l : List Nat} :
    ∀ {e : PhysicsEngine}, WF e → WF (l.foldl PhysicsEngine.removeBody e) := by
  induction l with
  | nil => intro e h; exact h
  | cons k t ih => intro e h; exact ih (wf_removeBody h k)

theorem wf_clearAllBodies {e : PhysicsEngine} (hWF : WF e) : WF e.clearAllBodies :=
  wf_foldl_remove hWF

/-- `removeBody` never adds bodies. -/
theorem removeBody_bodies_sub {e : PhysicsEngine} {bodyId : Nat} :
    ∀ p ∈ (e.removeBody bodyId).bodies, p ∈ e.bodies := by
  unfold removeBody
  cases hb : e.bodies.lookup bodyId with
  | none => intro p hp; exact hp
  | some b =>
    cases hw : e.world with
    | none => intro p hp; exact hp
    | some w => intro p hp; exact List.mem_of_mem_filter hp

/-- `removeBody` does not free the world. -/
theorem removeBody_world_isSome {e : PhysicsEngine} (h : e.world.isSome)
    (bodyId : Nat) : (e.removeBody bodyId).world.isSome := by
  unfold removeBody
  cases hb : e.bodies.lookup bodyId with
  | none => exact h
  | some b =>
    cases hw : e.world with
    | none => exact h
    | some w => rfl

/-- When the world exists, `removeBody bodyId` leaves no entry keyed
`bodyId` in the body map. -/
theorem removeBody_killed {e : PhysicsEngine} (hw : e.world.isSome) (bodyId : Nat) :
    ∀ p ∈ (e.removeBody bodyId).bodies, p.1 ≠ bodyId := by
  unfold removeBody
  cases hb : e.bodies.lookup bodyId with
  | none =>
    intro p hp hpe
    have : bodyId ∈ e.bodies.map Prod.fst := List.mem_map.mpr ⟨p, hp, hpe⟩
    exact (lookup_eq_none_iff _ _).mp hb this
  | some b =>
    cases hwo : e.world with
    | none => rw [hwo] at hw; simp at hw
    | some w =>
      intro p hp
      simpa using List.of_mem_filter hp

theorem foldl_remove_not_mem {l : List Nat} :
    ∀ {e : PhysicsEngine}, e.world.isSome →
      ∀ p ∈ (l.foldl PhysicsEngine.removeBody e).bodies, p ∈ e.bodies ∧ p.1 ∉ l := by
  induction l with
  | nil => intro e _ p hp; exact ⟨hp, by simp⟩
  | cons k t ih =>
    intro e hw p hp
    have hw' : (e.removeBody k).world.isSome := removeBody_world_isSome hw k
    obtain ⟨hp1, hp2⟩ := ih hw' p hp
    refine ⟨removeBody_bodies_sub p hp1, ?_⟩
    simp only [List.mem_cons, not_or]
    exact ⟨removeBody_killed hw k p hp1, hp2⟩

/-- When the world exists, `clearAllBodies` empties the body map. -/
theorem clearAllBodies_bodies_nil {e : PhysicsEngine} (hw : e.world.isSome) :
    e.clearAllBodies.bodies = [] := by
  unfold clearAllBodies
  apply List.eq_nil_iff_forall_not_mem.mpr
  intro p hp
  obtain ⟨hmem, hnot⟩ := foldl_remove_not_mem hw p hp
  exact hnot (List.mem_map.mpr ⟨p, hmem, rfl⟩)

theorem wf_dispose {e : PhysicsEngine} (hWF : WF e) : WF e.dispose := by
  obtain ⟨wiff, emp, idslt, idf, hval, hlt, hnd, wklt⟩ := hWF
  unfold dispose
  cases hw : e.world with
  | none =>
    have hi0 : e.initialized = false := by
      rw [hw] at wiff
      simpa using (mt wiff.mpr (by simp))
    have hb : e.bodies = [] := emp hi0
    constructor <;> simp_all [hw, hb]
  | some w =>
    have hnil : e.clearAllBodies.bodies = [] :=
      clearAllBodies_bodies_nil (by rw [hw]; rfl)
    constructor <;> simp_all [hnil]

/-- Every public operation preserves the invariants. -/
theorem wf_of_step {e e' : PhysicsEngine} (h : Step e e') (hWF : WF e) : WF e' := by
  cases h with
  | init e2 ok hinit => exact wf_init hWF hinit
  | addStaticBox e2 mesh position size id hadd => exact (wf_addStaticBox hWF hadd).1
  | addDynamicSphere e2 mesh position radius mass restitution id hadd =>
      exact (wf_addDynamicSphere hWF hadd).1
  | setVelocity bodyId v => exact wf_setVelocity hWF bodyId v
  | setPosition bodyId p => exact wf_setPosition hWF bodyId p
  | setAngularVelocity bodyId v => exact wf_setAngularVelocity hWF bodyId v
  | addImpulse bodyId i => exact wf_addImpulse hWF bodyId i
  | step dt f => exact wf_step hWF dt f
  | removeBody bodyId => exact wf_removeBody hWF bodyId
  | clearAllBodies => exact wf_clearAllBodies hWF
  | dispose => exact wf_dispose hWF

/-- Every engine state reachable from `new PhysicsEngine()` satisfies the
invariants. -/
theorem wf_reachable {e : PhysicsEngine} (h : Reachable e) : WF e := by
  induction h with
  | refl => exact wf_mk0
  | tail _ hstep ih => exact wf_of_step hstep ih

end PhysicsEngine

/-! ### ThreeSceneC: the collision-cycle phase machine

The hadron-collider scene's phase fields (`collisionPhase`,
`phaseStartTime`, `currentCycleNumber`, `isLoaded`, `physicsInitialized`)
are modified only by the constructor and field initializers,
`init`/`startCollisionSequence` (flag flips), `beginNewCycle`,
`advancePhase` (only ever called from `updatePhysics`), and `dispose`.
The embedding carries exactly these fields; the visual updates inside
`updatePhysics` (mesh rotation, trails, collision particles) and the
physics stepping never touch them, and the engine itself is modelled
separately as `PhysicsEngine`.  Times are milliseconds (`Date.now()`),
modelled as integers. -/

/-- The union type `'setup' | 'firing' | 'physics' | 'cleanup'`. -/
inductive Phase where
  | setup
  | firing
  | physics
  | cleanup
deriving DecidableEq, Repr

/-- The `phaseDurations` table: per-phase durations in milliseconds. -/
def phaseDurationsTable : List (Phase × Int) :=
  [(.setup, 500), (.firing, 0), (.physics, 8000), (.cleanup, 1000)]

/-- The phase-machine fields of `ThreeSceneC`, with their initializers. -/
structure ThreeSceneC where
  collisionPhase : Phase := .setup
  phaseStartTime : Int := 0
  currentCycleNumber : Nat := 0
  isLoaded : Bool := false
  physicsInitialized : Bool := false
deriving DecidableEq, Repr

namespace ThreeSceneC

/-- The state right after `new ThreeSceneC(canvas)` field initialization. -/
def mk0 : ThreeSceneC := {}

/-- `beginNewCycle()`: bumps the cycle counter, resets the phase to
`'setup'` and stamps `phaseStartTime` with the current time (the particle
clearing and random re-setup touch no phase field). -/
def beginNewCycle (s : ThreeSceneC) (now : Int) : ThreeSceneC :=
  { s with currentCycleNumber := s.currentCycleNumber + 1,
           collisionPhase := .setup,
           phaseStartTime := now }

/-- `advancePhase()`: `setup → physics` (firing skipped), `firing →
physics` (kept for backward compatibility), `physics → cleanup`, and from
`cleanup` a new cycle begins (which stamps the start time itself); in the
other cases `phaseStartTime` is stamped after the switch. -/
def advancePhase (s : ThreeSceneC) (now : Int) : ThreeSceneC :=
  match s.collisionPhase with
  | .setup => { s with collisionPhase := .physics, phaseStartTime := now }
  | .firing => { s with collisionPhase := .physics, phaseStartTime := now }
  | .physics => { s with collisionPhase := .cleanup, phaseStartTime := now }
  | .cleanup => s.beginNewCycle now

/-- `updatePhysics()`, restricted to the phase fields: bail out unless
loaded and physics-initialized; look up the current phase's duration;
advance the phase exactly when the elapsed time reaches it.  The
phase-specific `update*Phase` bodies and the trail/rotation updates do
not modify any phase field.  The `none` branch of the duration lookup is
dead code: the table has an entry for every phase. -/
def updatePhysics (s : ThreeSceneC) (now : Int) : ThreeSceneC :=
  if !s.isLoaded || !s.physicsInitialized then s
  else
    match phaseDurationsTable.lookup s.collisionPhase with
    | none => s
    | some d =>
      let phaseElapsed := now - s.phaseStartTime
      if phaseElapsed ≥ d then s.advancePhase now
      else s

/-- `dispose()` (phase fields only): resets `collisionPhase` to `'setup'`. -/
def disposeScene (s : ThreeSceneC) : ThreeSceneC :=
  { s with collisionPhase := .setup }

/-- The scene-lifecycle events that can touch the phase fields. -/
inductive CStep : ThreeSceneC → ThreeSceneC → Prop where
  | initDone (s : ThreeSceneC) :
      CStep s { s with physicsInitialized := true }
  | loadDone (s : ThreeSceneC) :
      CStep s { s with isLoaded := true }
  | startCycle (s : ThreeSceneC) (now : Int) :
      s.physicsInitialized = true → CStep s (s.beginNewCycle now)
  | update (s : ThreeSceneC) (now : Int) :
      CStep s (s.updatePhysics now)
  | disposed (s : ThreeSceneC) :
      CStep s s.disposeScene

/-- Scene states reachable from construction. -/
def Reachable (s : ThreeSceneC) : Prop :=
  Relation.ReflTransGen CStep mk0 s

/-- `advancePhase` never produces the `'firing'` phase. -/
theorem advancePhase_ne_firing (s : ThreeSceneC) (now : Int) :
    (s.advancePhase now).collisionPhase ≠ .firing := by
  unfold advancePhase beginNewCycle
  cases s.collisionPhase <;> simp

/-- `updatePhysics` either keeps the phase fields or performs
`advancePhase`. -/
theorem updatePhysics_cases (s : ThreeSceneC) (now : Int) :
    (s.updatePhysics now).collisionPhase = s.collisionPhase ∨
      s.updatePhysics now = s.advancePhase now := by
  unfold updatePhysics
  by_cases hg : (!s.isLoaded || !s.physicsInitialized) = true
  · rw [if_pos hg]; exact Or.inl rfl
  · rw [if_neg hg]
    cases phaseDurationsTable.lookup s.collisionPhase with
    | none => exact Or.inl rfl
    | some d =>
      by_cases hd : now - s.phaseStartTime ≥ d
      · simp only [hd, ge_iff_le, if_pos]
        exact Or.inr (by simp [hd])
      · simp only [ge_iff_le] at hd ⊢
        rw [if_neg hd]
        exact Or.inl rfl

/-- No event introduces the `'firing'` phase. -/
theorem cstep_ne_firing {s s' : ThreeSceneC} (h : CStep s s')
    (hs : s.collisionPhase ≠ .firing) : s'.collisionPhase ≠ .firing := by
  cases h with
  | initDone => exact hs
  | loadDone => exact hs
  | startCycle now hp => simp [beginNewCycle]
  | update now =>
    rcases updatePhysics_cases s now with hc | hc
    · rw [hc]; exact hs
    · rw [hc]; exact advancePhase_ne_firing s now
  | disposed => simp [disposeScene]

/-- In every reachable scene state the phase is not `'firing'`. -/
theorem reachable_ne_firing {s : ThreeSceneC} (h : Reachable s) :
    s.collisionPhase ≠ .firing := by
  induction h with
  | refl => simp [mk0]
  | tail _ hstep ih => exact cstep_ne_firing hstep ih

end ThreeSceneC

/-! ### Lottery data fetching: `ThreeSceneD.fetchLotteryData` and
`LotteryAnalyzer.fetchHistoricalData` -/

/-- The `LotteryData` / `LotteryDrawData` record shape of the NY lottery
API rows. -/
structure LotteryData where
  draw_date : String
  winning_numbers : String
  multiplier : String
deriving DecidableEq, Repr

/-- A JavaScript number that may be `NaN` (`parseInt` on a non-numeric
token). -/
inductive JSNum where
  | nan
  | int (n : Int)
deriving DecidableEq, Repr

/-- `parseInt(token)` with the default radix: an optional sign followed by
leading decimal digits; `NaN` when no digit is found. -/
def parseIntTS (str : String) : JSNum :=
  let chars := str.toList
  let signed : Int × List Char :=
    match chars with
    | '-' :: r => (-1, r)
    | '+' :: r => (1, r)
    | r => (1, r)
  let digits := signed.2.takeWhile Char.isDigit
  if digits.isEmpty then .nan
  else .int (signed.1 *
    (digits.foldl (fun acc c => acc * 10 + (c.toNat - '0'.toNat)) 0 : Nat))

/-- The result of one `fetch` round trip: either the promise rejects
(network error, JSON parse failure), or a response arrives with its `ok`
flag, HTTP status, and parsed rows. -/
inductive FetchOutcome where
  | reject (msg : String)
  | respond (ok : Bool) (status : Nat) (data : List LotteryData)
deriving DecidableEq, Repr

/-- A fetch outcome the code treats as a failure: a rejection, or a
response with `!response.ok` (the code throws, and its own catch block
handles it). -/
def FetchOutcome.isFailure : FetchOutcome → Bool
  | .reject _ => true
  | .respond ok _ _ => !ok

/-- The fields of `ThreeSceneD` that `fetchLotteryData` touches, with
their initializers, plus flags recording which update methods ran. -/
structure ThreeSceneD where
  currentNumbers : List JSNum := [.int 0, .int 0, .int 0, .int 0, .int 0, .int 0]
  drawDate : String := ""
  multiplier : String := "1"
  ballNumbersUpdated : Bool := false
  textsUpdated : Bool := false
  uiUpdated : Bool := false
  loadingProgress : Option Nat := none
deriving DecidableEq, Repr

namespace ThreeSceneD

/-- The hardcoded demo numbers used when the API is unreachable. -/
def demoNumbers : List JSNum :=
  [.int 13, .int 47, .int 52, .int 64, .int 67, .int 25]

/-- The catch block of `fetchLotteryData`: log, install the demo numbers,
stamp the current date and multiplier '2', and refresh balls, 3D texts
and UI. -/
def onFetchError (s : ThreeSceneD) (nowISO : String) : ThreeSceneD :=
  { s with currentNumbers := demoNumbers,
           drawDate := nowISO,
           multiplier := "2",
           ballNumbersUpdated := true,
           textsUpdated := true,
           uiUpdated := true }

/-- `fetchLotteryData()`: fetch the latest draw; on a non-ok status throw
(into the local catch); on data, store date/multiplier, parse the winning
numbers and, when at least 6 parsed, install them and refresh balls and
UI; on empty data refresh the 3D texts with defaults; any failure runs
the catch block.  The loading bar is updated to 80 in all paths. -/
def fetchLotteryData (s : ThreeSceneD) (outcome : FetchOutcome)
    (nowISO : String) : ThreeSceneD :=
  let afterTry :=
    match outcome with
    | .reject _ => s.onFetchError nowISO
    | .respond ok _ data =>
      if !ok then s.onFetchError nowISO
      else
        match data with
        | [] => { s with textsUpdated := true }
        | latest :: _ =>
          let s := { s with drawDate := latest.draw_date,
                            multiplier := latest.multiplier }
          let numbers := (latest.winning_numbers.splitOn " ").map parseIntTS
          if numbers.length ≥ 6 then
            { s with currentNumbers := numbers,
                     ballNumbersUpdated := true,
                     uiUpdated := true }
          else s
  { afterTry with loadingProgress := some 80 }

end ThreeSceneD

namespace LotteryAnalyzer

/-- `fetchHistoricalData(limit)`: returns the fetched rows; any failure
(rejection or non-ok status) is caught, logged, and replaced by the empty
list — the caller never sees an error. -/
def fetchHistoricalData (outcome : FetchOutcome) : List LotteryData :=
  match outcome with
  | .reject _ => []
  | .respond ok _ data => if !ok then [] else data

end LotteryAnalyzer

/-! ### ThreeSceneE: arcade-shooter model loading and fallbacks -/

/-- The geometry of a created mesh, as far as the claims inspect it. -/
inductive Geometry where
  | cone (radius height : ℚ) (radialSegments : Nat)
  | box (width height depth : ℚ)
  | icosahedron (radius : ℚ) (detail : Nat)
  | modelClone (name : String)
deriving DecidableEq, Repr

/-- Whether a geometry is a cube/box. -/
def Geometry.isBox : Geometry → Bool
  | .box _ _ _ => true
  | _ => false

namespace ThreeSceneE

/-- The ship as created by `loadShip` / `createFallbackShip`: the hull
geometry plus the three thruster cones. -/
structure Ship where
  hullGeometry : Geometry
  thrusterCount : Nat
deriving DecidableEq, Repr

/-- `createFallbackShip()`: the original cone hull
(`ConeGeometry(0.8, 2.5, 3)`) plus three thrusters. -/
def createFallbackShip : Ship :=
  { hullGeometry := .cone (4/5) (5/2) 3, thrusterCount := 3 }

/-- One asteroid record (`Asteroid` interface), reduced to the fields the
claims inspect. -/
structure Asteroid where
  geometry : Geometry
  position : Vec3
  size : ℚ
deriving DecidableEq, Repr

/-- `createAsteroidAt(position, size)`: when the asteroid model is not
loaded, falls back to simple geometry (`IcosahedronGeometry(size * 0.7, 1)`);
otherwise clones the loaded model. -/
def createAsteroidAt (asteroidModelLoaded : Bool) (position : Vec3) (size : ℚ) :
    Asteroid :=
  if asteroidModelLoaded then
    { geometry := .modelClone "Asteroid_1e", position := position, size := size }
  else
    { geometry := .icosahedron (size * (7/10)) 1, position := position, size := size }

/-- `createAsteroids()`: spawns `5 + level * 2` large asteroids via
`createAsteroid(3)`, which skips creation entirely when the asteroid
model is not loaded.  Returns the number actually created. -/
def createAsteroids (asteroidModelLoaded : Bool) (level : Nat) : Nat :=
  let asteroidCount := 5 + level * 2
  if asteroidModelLoaded then asteroidCount else 0

/-- The observable outcome of `loadShip()`. -/
structure LoadShipOutcome where
  ship : Ship
  usedFallback : Bool
  errorLogged : Bool
  asteroidsSpawned : Nat
deriving DecidableEq, Repr

/-- `loadShip()`: on success the FBX fighter model becomes the hull and
asteroids are created; on any load failure the error is logged, the
fallback cone ship is substituted, and asteroids are still created.
Nothing is re-thrown (the model is a total function). -/
def loadShip (shipLoadOk asteroidModelLoaded : Bool) (level : Nat) :
    LoadShipOutcome :=
  if shipLoadOk then
    { ship := { hullGeometry := .modelClone "Fighter_03", thrusterCount := 3 },
      usedFallback := false,
      errorLogged := false,
      asteroidsSpawned := createAsteroids asteroidModelLoaded level }
  else
    { ship := createFallbackShip,
      usedFallback := true,
      errorLogged := true,
      asteroidsSpawned := createAsteroids asteroidModelLoaded level }

end ThreeSceneE

/-! ### ShaderManager: registry, deep-copying `find`, `createMaterial`

The registry maps shader names to definitions whose `uniforms` object maps
uniform names to `IUniform` cells (`\x7b value: ... \x7d`).  Cells and the
mutable value objects they may hold (`THREE.Color`, `THREE.Vector2`,
`THREE.Vector3`, or other classes) live in an explicit heap, so that the
sharing between the registry and the structures handed to callers — the
heart of claim coverage here — is expressible.  The GLSL source bodies are
opaque string constants (no claim inspects their text), abbreviated to
short tags. -/

/-- The class of a mutable uniform value object. -/
inductive ObjKind where
  | color
  | vec2
  | vec3
  | other
deriving DecidableEq, Repr

/-- A mutable value object on the heap: its class and its components. -/
structure HeapObj where
  kind : ObjKind
  data : List ℚ
deriving DecidableEq, Repr

/-- The `value` field of an `IUniform` cell: `null`, an immutable number,
or a reference to a mutable object. -/
inductive UniformValue where
  | null
  | num (q : ℚ)
  | obj (addr : Nat)
deriving DecidableEq, Repr

/-- `ShaderDefinition`: shader sources plus the uniforms object, mapping
uniform names to `IUniform` cell addresses. -/
structure ShaderDef where
  vertexShader : String
  fragmentShader : String
  uniforms : List (String × Nat)
deriving DecidableEq, Repr

/-- The `ShaderManager` static state plus the heap: the registry, the
`initialized` flag, the `IUniform` cells, the mutable value objects, and
the next fresh address. -/
structure SMState where
  shaders : List (String × ShaderDef)
  initialized : Bool
  wrappers : List (Nat × UniformValue)
  objs : List (Nat × HeapObj)
  nextAddr : Nat
deriving DecidableEq, Repr

namespace ShaderManager

/-- Allocate a mutable value object. -/
def allocObj (s : SMState) (o : HeapObj) : SMState × Nat :=
  ({ s with objs := s.objs ++ [(s.nextAddr, o)], nextAddr := s.nextAddr + 1 },
   s.nextAddr)

/-- Allocate an `IUniform` cell. -/
def allocWrapper (s : SMState) (v : UniformValue) : SMState × Nat :=
  ({ s with wrappers := s.wrappers ++ [(s.nextAddr, v)], nextAddr := s.nextAddr + 1 },
   s.nextAddr)

/-- Assign `cell.value = v` (the mutation `createMaterial` performs). -/
def setWrapper (s : SMState) (a : Nat) (v : UniformValue) : SMState :=
  { s with wrappers := s.wrappers.map (fun p => if p.1 = a then (p.1, v) else p) }

/-- Mutate a value object in place (e.g. `color.set(...)`). -/
def setObjData (s : SMState) (a : Nat) (dat : List ℚ) : SMState :=
  { s with objs := s.objs.map (fun p => if p.1 = a then (p.1, { p.2 with data := dat }) else p) }

/-- The state of the `ShaderManager` class before `init()` runs. -/
def empty : SMState :=
  { shaders := [], initialized := false, wrappers := [], objs := [], nextAddr := 0 }

/-- `init()`: registers the four shaders with their default uniforms.
Component data of the colors follow `THREE.Color(hex)`
(`0x0077ff ↦ (0, 119/255, 1)`, `0xffffff ↦ (1, 1, 1)`,
`0x00aaff ↦ (0, 170/255, 1)`); vectors default to the constructor
arguments.  Already-initialized managers return unchanged. -/
def init (s : SMState) : SMState :=
  if s.initialized then s
  else
    -- skyEnvironment
    let (s, aSkyTexture) := allocWrapper s .null
    let (s, oTopColor) := allocObj s ⟨.color, [0, 119/255, 1]⟩
    let (s, aTopColor) := allocWrapper s (.obj oTopColor)
    let (s, oBottomColor) := allocObj s ⟨.color, [1, 1, 1]⟩
    let (s, aBottomColor) := allocWrapper s (.obj oBottomColor)
    let (s, aOffset) := allocWrapper s (.num 400)
    let (s, aExponent) := allocWrapper s (.num (3/5))
    -- clouds
    let (s, oCameraPosition) := allocObj s ⟨.vec3, [0, 0, 0]⟩
    let (s, aCameraPosition) := allocWrapper s (.obj oCameraPosition)
    -- terrain
    let (s, aDiffuseMap) := allocWrapper s .null
    let (s, aNormalMap) := allocWrapper s .null
    let (s, oLightDirection) := allocObj s ⟨.vec3, [1, 1, 1]⟩
    let (s, aLightDirection) := allocWrapper s (.obj oLightDirection)
    -- shield
    let (s, aOpacity) := allocWrapper s (.num (1/2))
    let (s, oShieldColor) := allocObj s ⟨.color, [0, 170/255, 1]⟩
    let (s, aShieldColor) := allocWrapper s (.obj oShieldColor)
    { s with
      shaders := s.shaders ++
        [("skyEnvironment",
          { vertexShader := "skyEnvironment.vert",
            fragmentShader := "skyEnvironment.frag",
            uniforms := [("skyTexture", aSkyTexture), ("topColor", aTopColor),
                         ("bottomColor", aBottomColor), ("offset", aOffset),
                         ("exponent", aExponent)] }),
         ("clouds",
          { vertexShader := "clouds.vert",
            fragmentShader := "clouds.frag",
            uniforms := [("cameraPosition", aCameraPosition)] }),
         ("terrain",
          { vertexShader := "terrain.vert",
            fragmentShader := "terrain.frag",
            uniforms := [("diffuseMap", aDiffuseMap), ("normalMap", aNormalMap),
                         ("lightDirection", aLightDirection)] }),
         ("shield",
          { vertexShader := "shield.vert",
            fragmentShader := "shield.frag",
            uniforms := [("opacity", aOpacity), ("color", aShieldColor)] })],
      initialized := true }

/-- The loop body of `cloneUniforms`: clone one uniform entry.  `Color`,
`Vector2` and `Vector3` values are cloned into fresh objects; any other
value (null, numbers, other object classes) is carried over into the
fresh cell; entries whose cell is missing are skipped (`if (uniform)`). -/
def cloneUniformStep (acc : SMState × List (String × Nat)) (kv : String × Nat) :
    SMState × List (String × Nat) :=
  match acc.1.wrappers.lookup kv.2 with
  | none => acc
  | some v =>
    match v with
    | .obj a =>
      match acc.1.objs.lookup a with
      | some o =>
        if o.kind = .other then
          let (s', wAddr) := allocWrapper acc.1 (.obj a)
          (s', acc.2 ++ [(kv.1, wAddr)])
        else
          let (s', a') := allocObj acc.1 o
          let (s'', wAddr) := allocWrapper s' (.obj a')
          (s'', acc.2 ++ [(kv.1, wAddr)])
      | none =>
        let (s', wAddr) := allocWrapper acc.1 (.obj a)
        (s', acc.2 ++ [(kv.1, wAddr)])
    | v =>
      let (s', wAddr) := allocWrapper acc.1 v
      (s', acc.2 ++ [(kv.1, wAddr)])

/-- `cloneUniforms(uniforms)`: build a fresh uniforms object. -/
def cloneUniforms (s : SMState) (uniforms : List (String × Nat)) :
    SMState × List (String × Nat) :=
  uniforms.foldl cloneUniformStep (s, [])

/-- `find(name)`: initialize if needed; throw when the name is not
registered; otherwise return a copy of the stored definition — the shader
strings and a deep copy of the uniforms. -/
def find (s : SMState) (name : String) : Except String (ShaderDef × SMState) :=
  let s := if s.initialized then s else init s
  match s.shaders.lookup name with
  | none => .error ("Shader " ++ name ++ " not found")
  | some sh =>
    let (s', uniforms') := cloneUniforms s sh.uniforms
    .ok ({ vertexShader := sh.vertexShader,
           fragmentShader := sh.fragmentShader,
           uniforms := uniforms' }, s')

/-- The material returned by `createMaterial` (the fields the claims
inspect). -/
structure ShaderMaterial where
  vertexShader : String
  fragmentShader : String
  uniforms : List (String × Nat)
deriving DecidableEq, Repr

/-- `createMaterial(name, overrideUniforms)`: `find` the definition, then
for every override key present in the copied uniforms assign
`shaderDef.uniforms[key].value = overrideUniforms[key]`, and build the
material from the copied definition. -/
def createMaterial (s : SMState) (name : String)
    (overrideUniforms : List (String × UniformValue)) :
    Except String (ShaderMaterial × SMState) :=
  match find s name with
  | .error e => .error e
  | .ok (shaderDef, s') =>
    let s'' := overrideUniforms.foldl
      (fun st kv =>
        match shaderDef.uniforms.lookup kv.1 with
        | some a => setWrapper st a kv.2
        | none => st) s'
    .ok ({ vertexShader := shaderDef.vertexShader,
           fragmentShader := shaderDef.fragmentShader,
           uniforms := shaderDef.uniforms }, s'')

/-- A uniform value with references chased: what a caller observes. -/
inductive Resolved where
  | rnull
  | rnum (q : ℚ)
  | robj (kind : ObjKind) (data : List ℚ)
  | rdangling
deriving DecidableEq, Repr

/-- Chase an `IUniform` cell to its observable value. -/
def resolveWrapper (s : SMState) (a : Nat) : Resolved :=
  match s.wrappers.lookup a with
  | none => .rdangling
  | some .null => .rnull
  | some (.num q) => .rnum q
  | some (.obj oa) =>
    match s.objs.lookup oa with
    | none => .rdangling
    | some o => .robj o.kind o.data

/-- The observable default uniform values of a registered shader: what a
(fresh) `find` hands to its caller, read off the registry directly. -/
def registryDefaults (s : SMState) (name : String) :
    Option (List (String × Resolved)) :=
  (s.shaders.lookup name).map
    (fun sh => sh.uniforms.map (fun kv => (kv.1, resolveWrapper s kv.2)))

/-- The `IUniform` cell addresses of a definition handed to a caller. -/
def defWrapperAddrs (d : ShaderDef) : List Nat := d.uniforms.map Prod.snd

/-- The value-object addresses reachable from a definition's cells in a
given state. -/
def defObjAddrs (s : SMState) (d : ShaderDef) : List Nat :=
  d.uniforms.filterMap (fun kv =>
    match s.wrappers.lookup kv.2 with
    | some (.obj a) => some a
    | _ => none)

/-- One client-side mutation of the structure returned by `find`: either
assigning `.value` on one of its cells, or mutating in place a value
object reachable from them. -/
def ClientWrite (d : ShaderDef) (base : SMState) (s s' : SMState) : Prop :=
  (∃ a ∈ defWrapperAddrs d, ∃ v, s' = setWrapper s a v) ∨
  (∃ a ∈ defObjAddrs base d, ∃ dat, s' = setObjData s a dat)

/-- Any finite sequence of client-side mutations of the returned
structure. -/
def ClientWrites (d : ShaderDef) (base : SMState) : SMState → SMState → Prop :=
  Relation.ReflTransGen (ClientWrite d base)

/-- The registry's `IUniform` cell addresses. -/
def regWAddrs (s : SMState) : List Nat :=
  (s.shaders.map Prod.snd).flatMap (fun sh => sh.uniforms.map Prod.snd)

/-- The value-object addresses reachable from the registry's cells. -/
def regOAddrs (s : SMState) : List Nat :=
  (regWAddrs s).filterMap (fun a =>
    match s.wrappers.lookup a with
    | some (.obj oa) => some oa
    | _ => none)

/-- The registry part of `s` coincides with that of `s0`: same shader
table, and every cell / value object the registry references reads the
same. -/
structure RegistryIntact (s0 s : SMState) : Prop where
  shaders_eq : s.shaders = s0.shaders
  wrap_eq : ∀ a ∈ regWAddrs s0, s.wrappers.lookup a = s0.wrappers.lookup a
  obj_eq : ∀ a ∈ regOAddrs s0, s.objs.lookup a = s0.objs.lookup a

theorem registryIntact_refl (s0 : SMState) : RegistryIntact s0 s0 :=
  ⟨rfl, fun _ _ => rfl, fun _ _ => rfl⟩

/-- An intact registry reports the same observable defaults. -/
theorem registryDefaults_of_intact {s0 s : SMState} (h : RegistryIntact s0 s)
    (name : String) : registryDefaults s name = registryDefaults s0 name := by
  unfold registryDefaults
  rw [h.shaders_eq]
  cases hlk : s0.shaders.lookup name with
  | none => rfl
  | some sh =>
    simp only [Option.map_some']
    congr 1
    apply List.map_congr_left
    intro kv hkv
    have hsh : sh ∈ s0.shaders.map Prod.snd :=
      List.mem_map.mpr ⟨(name, sh), mem_of_lookup_eq_some hlk, rfl⟩
    have hmemW : kv.2 ∈ regWAddrs s0 := by
      unfold regWAddrs
      exact List.mem_flatMap.mpr ⟨sh, hsh, List.mem_map.mpr ⟨kv, hkv, rfl⟩⟩
    unfold resolveWrapper
    rw [h.wrap_eq kv.2 hmemW]
    cases hv : s0.wrappers.lookup kv.2 with
    | none => rfl
    | some v =>
      cases v with
      | null => rfl
      | num q => rfl
      | obj oa =>
        have hmemO : oa ∈ regOAddrs s0 := by
          unfold regOAddrs
          exact List.mem_filterMap.mpr ⟨kv.2, hmemW, by rw [hv]⟩
        simp only [h.obj_eq oa hmemO]

/-- Assigning `.value` on a cell outside the registry leaves the registry
intact. -/
theorem intact_setWrapper {s0 s : SMState} (h : RegistryIntact s0 s) {a : Nat}
    (ha : a ∉ regWAddrs s0) (v : UniformValue) :
    RegistryIntact s0 (setWrapper s a v) := by
  refine ⟨h.shaders_eq, ?_, h.obj_eq⟩
  intro r hr
  have hne : r ≠ a := fun hra => ha (hra ▸ hr)
  have := lookup_update_ne s.wrappers a r (fun _ => v) hne
  exact this.trans (h.wrap_eq r hr)

/-- Mutating a value object outside the registry leaves the registry
intact. -/
theorem intact_setObjData {s0 s : SMState} (h : RegistryIntact s0 s) {a : Nat}
    (ha : a ∉ regOAddrs s0) (dat : List ℚ) :
    RegistryIntact s0 (setObjData s a dat) := by
  refine ⟨h.shaders_eq, h.wrap_eq, ?_⟩
  intro r hr
  have hne : r ≠ a := fun hra => ha (hra ▸ hr)
  have := lookup_update_ne s.objs a r (fun o => { o with data := dat }) hne
  exact this.trans (h.obj_eq r hr)

/-- Any chain of client-side mutations of a returned definition whose
addresses avoid the registry leaves the registry intact. -/
theorem intact_clientWrites {d : ShaderDef} {base s0 s s' : SMState}
    (hW : ∀ a ∈ defWrapperAddrs d, a ∉ regWAddrs s0)
    (hO : ∀ a ∈ defObjAddrs base d, a ∉ regOAddrs s0)
    (h : ClientWrites d base s s') (hint : RegistryIntact s0 s) :
    RegistryIntact s0 s' := by
  induction h with
  | refl => exact hint
  | tail _ hw ih =>
    rcases hw with ⟨a, ha, v, rfl⟩ | ⟨a, ha, dat, rfl⟩
    · exact intact_setWrapper ih (hW a ha) v
    · exact intact_setObjData ih (hO a ha) dat

/-- One clone step only appends to the heap and keeps the registry. -/
theorem cloneUniformStep_extends (acc : SMState × List (String × Nat))
    (kv : String × Nat) :
    (∃ l, (cloneUniformStep acc kv).1.wrappers = acc.1.wrappers ++ l) ∧
    (∃ l, (cloneUniformStep acc kv).1.objs = acc.1.objs ++ l) ∧
    (cloneUniformStep acc kv).1.shaders = acc.1.shaders := by
  cases h1 : acc.1.wrappers.lookup kv.2 with
  | none =>
    simp only [cloneUniformStep, h1]
    exact ⟨⟨[], by simp⟩, ⟨[], by simp⟩, trivial⟩
  | some v =>
    cases v with
    | null =>
      simp only [cloneUniformStep, h1, allocWrapper]
      exact ⟨⟨[(acc.1.nextAddr, .null)], rfl⟩, ⟨[], by simp⟩, trivial⟩
    | num q =>
      simp only [cloneUniformStep, h1, allocWrapper]
      exact ⟨⟨[(acc.1.nextAddr, .num q)], rfl⟩, ⟨[], by simp⟩, trivial⟩
    | obj a =>
      cases h2 : acc.1.objs.lookup a with
      | none =>
        simp only [cloneUniformStep, h1, h2, allocWrapper]
        exact ⟨⟨[(acc.1.nextAddr, .obj a)], rfl⟩, ⟨[], by simp⟩, trivial⟩
      | some o =>
        by_cases h3 : o.kind = .other
        · simp only [cloneUniformStep, h1, h2, allocWrapper, if_pos h3]
          exact ⟨⟨[(acc.1.nextAddr, .obj a)], rfl⟩, ⟨[], by simp⟩, trivial⟩
        · simp only [cloneUniformStep, h1, h2, allocWrapper, allocObj, if_neg h3]
          exact ⟨⟨[(acc.1.nextAddr + 1, .obj acc.1.nextAddr)], rfl⟩,
                 ⟨[(acc.1.nextAddr, o)], rfl⟩, trivial⟩

/-- Folding clone steps only appends to the heap and keeps the registry. -/
theorem cloneUniforms_fold_extends (uniforms : List (String × Nat)) :
    ∀ acc : SMState × List (String × Nat),
      (∃ l, (uniforms.foldl cloneUniformStep acc).1.wrappers = acc.1.wrappers ++ l) ∧
      (∃ l, (uniforms.foldl cloneUniformStep acc).1.objs = acc.1.objs ++ l) ∧
      (uniforms.foldl cloneUniformStep acc).1.shaders = acc.1.shaders := by
  induction uniforms with
  | nil => intro acc; exact ⟨⟨[], by simp⟩, ⟨[], by simp⟩, rfl⟩
  | cons kv t ih =>
    intro acc
    simp only [List.foldl_cons]
    obtain ⟨⟨l1, h1⟩, ⟨l2, h2⟩, h3⟩ := ih (cloneUniformStep acc kv)
    obtain ⟨⟨m1, g1⟩, ⟨m2, g2⟩, g3⟩ := cloneUniformStep_extends acc kv
    exact ⟨⟨m1 ++ l1, by rw [h1, g1, List.append_assoc]⟩,
           ⟨m2 ++ l2, by rw [h2, g2, List.append_assoc]⟩,
           by rw [h3, g3]⟩

/-- A state that extends `s0` by appended heap entries, with an unchanged
shader table, leaves the registry intact — provided every registry
address is actually allocated in `s0`. -/
theorem intact_of_extends {s0 s : SMState}
    (hW : ∃ l, s.wrappers = s0.wrappers ++ l)
    (hO : ∃ l, s.objs = s0.objs ++ l)
    (hSh : s.shaders = s0.shaders)
    (hWs : ∀ a ∈ regWAddrs s0, (s0.wrappers.lookup a).isSome)
    (hOs : ∀ a ∈ regOAddrs s0, (s0.objs.lookup a).isSome) :
    RegistryIntact s0 s := by
  obtain ⟨lw, hlw⟩ := hW
  obtain ⟨lo, hlo⟩ := hO
  refine ⟨hSh, ?_, ?_⟩
  · intro a ha
    obtain ⟨v, hv⟩ := Option.isSome_iff_exists.mp (hWs a ha)
    rw [hlw, lookup_append_left _ hv, hv]
  · intro a ha
    obtain ⟨v, hv⟩ := Option.isSome_iff_exists.mp (hOs a ha)
    rw [hlo, lookup_append_left _ hv, hv]

/-- A successful `find` leaves the registry intact: it only allocates. -/
theorem find_ok_intact {s : SMState} (hs : s.initialized = true)
    (hWs : ∀ a ∈ regWAddrs s, (s.wrappers.lookup a).isSome)
    (hOs : ∀ a ∈ regOAddrs s, (s.objs.lookup a).isSome)
    {name : String} {d : ShaderDef} {s₁ : SMState}
    (h : find s name = .ok (d, s₁)) : RegistryIntact s s₁ := by
  unfold find at h
  rw [if_pos hs] at h
  dsimp only at h
  cases hlk : s.shaders.lookup name with
  | none => rw [hlk] at h; simp at h
  | some sh =>
    rw [hlk] at h
    dsimp only at h
    rcases hcu : cloneUniforms s sh.uniforms with ⟨s', u'⟩
    rw [hcu] at h
    simp only [Except.ok.injEq, Prod.mk.injEq] at h
    obtain ⟨-, hs1⟩ := h
    subst hs1
    unfold cloneUniforms at hcu
    obtain ⟨⟨l1, h1⟩, ⟨l2, h2⟩, h3⟩ := cloneUniforms_fold_extends sh.uniforms (s, [])
    have hfst : (sh.uniforms.foldl cloneUniformStep (s, [])).1 = s' := by
      rw [hcu]
    rw [hfst] at h1 h2 h3
    exact intact_of_extends ⟨l1, h1⟩ ⟨l2, h2⟩ h3 hWs hOs

/-- The `createMaterial` override loop is a chain of client-side cell
assignments on the returned definition. -/
theorem override_fold_clientWrites (d : ShaderDef) (base : SMState)
    (ov : List (String × UniformValue)) :
    ∀ s, ClientWrites d base s
      (ov.foldl (fun st kv =>
        match d.uniforms.lookup kv.1 with
        | some a => setWrapper st a kv.2
        | none => st) s) := by
  induction ov with
  | nil => intro s; exact Relation.ReflTransGen.refl
  | cons kv t ih =>
    intro s
    simp only [List.foldl_cons]
    cases hlk : d.uniforms.lookup kv.1 with
    | none =>
      simp only [hlk]
      exact ih s
    | some a =>
      simp only [hlk]
      refine Relation.ReflTransGen.head ?_ (ih _)
      exact Or.inl ⟨a, List.mem_map.mpr ⟨(kv.1, a), mem_of_lookup_eq_some hlk, rfl⟩,
                    kv.2, rfl⟩

end ShaderManager

/-! ### Engine-operation auxiliary lemmas used by the claims -/

namespace PhysicsEngine

theorem removeBody_nextBodyId (e : PhysicsEngine) (bodyId : Nat) :
    (e.removeBody bodyId).nextBodyId = e.nextBodyId := by
  unfold removeBody
  cases e.bodies.lookup bodyId with
  | none => rfl
  | some b =>
    cases e.world with
    | none => rfl
    | some w => rfl

theorem foldl_remove_nextBodyId (l : List Nat) :
    ∀ e : PhysicsEngine, (l.foldl removeBody e).nextBodyId = e.nextBodyId := by
  induction l with
  | nil => intro e; rfl
  | cons k t ih =>
    intro e
    rw [List.foldl_cons, ih, removeBody_nextBodyId]

theorem clearAllBodies_nextBodyId (e : PhysicsEngine) :
    e.clearAllBodies.nextBodyId = e.nextBodyId :=
  foldl_remove_nextBodyId _ e

theorem addStaticBox_ok_next {e e' : PhysicsEngine} {mesh : Mesh}
    {position size : Vec3} {id : Nat}
    (h : e.addStaticBox mesh position size = .ok (e', id)) :
    id = e.nextBodyId ∧ e'.nextBodyId = e.nextBodyId + 1 ∧
    ∃ w, e.world = some w ∧
      e'.bodies = e.bodies ++
        [(id, { rigidBody := w.nextHandle, mesh := mesh, id := id })] := by
  unfold addStaticBox at h
  cases hw : e.world with
  | none => rw [hw] at h; simp at h
  | some w =>
    rw [hw] at h
    by_cases hi : e.initialized
    · simp only [hi, Bool.not_true, Bool.false_eq_true, if_false, Except.ok.injEq,
        Prod.mk.injEq] at h
      obtain ⟨he, hid⟩ := h
      subst he; subst hid
      exact ⟨rfl, rfl, w, rfl, rfl⟩
    · simp [Bool.not_eq_true] at hi
      simp [hi] at h

theorem addDynamicSphere_ok_next {e e' : PhysicsEngine} {mesh : Mesh}
    {position : Vec3} {radius mass restitution : ℚ} {id : Nat}
    (h : e.addDynamicSphere mesh position radius mass restitution = .ok (e', id)) :
    id = e.nextBodyId ∧ e'.nextBodyId = e.nextBodyId + 1 ∧
    ∃ w, e.world = some w ∧
      e'.bodies = e.bodies ++
        [(id, { rigidBody := w.nextHandle, mesh := mesh, id := id })] := by
  unfold addDynamicSphere at h
  cases hw : e.world with
  | none => rw [hw] at h; simp at h
  | some w =>
    rw [hw] at h
    by_cases hi : e.initialized
    · simp only [hi, Bool.not_true, Bool.false_eq_true, if_false, Except.ok.injEq,
        Prod.mk.injEq] at h
      obtain ⟨he, hid⟩ := h
      subst he; subst hid
      exact ⟨rfl, rfl, w, rfl, rfl⟩
    · simp [Bool.not_eq_true] at hi
      simp [hi] at h

theorem updateRigidBody_nextBodyId (e : PhysicsEngine) (handle : Nat)
    (f : RigidBody → RigidBody) :
    (e.updateRigidBody handle f).nextBodyId = e.nextBodyId := by
  unfold updateRigidBody
  cases e.world with
  | none => rfl
  | some w => rfl

/-- `nextBodyId` never decreases across any public operation: body ids,
once handed out, are never reissued. -/
theorem nextBodyId_mono {e e' : PhysicsEngine} (h : Step e e') :
    e.nextBodyId ≤ e'.nextBodyId := by
  cases h with
  | init e2 ok hinit =>
    unfold init at hinit
    by_cases hi : e.initialized
    · rw [if_pos hi] at hinit; cases hinit; exact le_refl _
    · rw [if_neg hi] at hinit
      cases ok with
      | true => simp only [if_true] at hinit; cases hinit; exact le_refl _
      | false => simp at hinit
  | addStaticBox e2 mesh position size id hadd =>
    rw [(addStaticBox_ok_next hadd).2.1]
    exact Nat.le_succ _
  | addDynamicSphere e2 mesh position radius mass restitution id hadd =>
    rw [(addDynamicSphere_ok_next hadd).2.1]
    exact Nat.le_succ _
  | setVelocity bodyId v =>
    unfold setVelocity
    cases e.bodies.lookup bodyId with
    | none => exact le_refl _
    | some b => rw [updateRigidBody_nextBodyId]
  | setPosition bodyId p =>
    unfold setPosition
    cases e.bodies.lookup bodyId with
    | none => exact le_refl _
    | some b => rw [updateRigidBody_nextBodyId]
  | setAngularVelocity bodyId v =>
    unfold setAngularVelocity
    cases e.bodies.lookup bodyId with
    | none => exact le_refl _
    | some b => rw [updateRigidBody_nextBodyId]
  | addImpulse bodyId i =>
    unfold addImpulse
    cases e.bodies.lookup bodyId with
    | none => exact le_refl _
    | some b => rw [updateRigidBody_nextBodyId]
  | step dt f =>
    unfold step
    cases e.world with
    | none => exact le_refl _
    | some w =>
      dsimp only
      by_cases hi : (!e.initialized) = true
      · rw [if_pos hi]
      · rw [if_neg hi]
  | removeBody bodyId => rw [removeBody_nextBodyId]
  | clearAllBodies => rw [clearAllBodies_nextBodyId]
  | dispose =>
    unfold dispose
    cases e.world with
    | none => exact le_refl _
    | some w =>
      dsimp only
      rw [clearAllBodies_nextBodyId]

end PhysicsEngine

/-! ### Claim theorems -/

/-- C1: After every call to `PhysicsEngine.step` on a reachable engine,
every body registered in the engine's body map has its mesh position
equal to the translation the rigid-body engine reports for it and its
mesh quaternion equal to the reported rotation — the mesh transform is
overwritten on every step.  (`f` is the rigid-body integrator applied by
`world.step()`.) -/
theorem claim_C1_step_overwrites_mesh_transforms
    (e : PhysicsEngine) (hR : PhysicsEngine.Reachable e) (dt : ℚ)
    (f : Nat → RigidBody → RigidBody) :
    ∀ p ∈ (e.step dt f).bodies, ∃ w rb,
      (e.step dt f).world = some w ∧
      w.rigidBodies.lookup p.2.rigidBody = some rb ∧
      p.2.mesh.position = rb.translation ∧
      p.2.mesh.quaternion = rb.rotation := by
  have hWF := PhysicsEngine.wf_reachable hR
  intro p hp
  unfold PhysicsEngine.step at hp ⊢
  cases hw : e.world with
  | none =>
    rw [hw] at hp
    have hinit : e.initialized = false := by
      have hiff := hWF.world_iff
      rw [hw] at hiff
      simpa using (mt hiff.mpr (by simp))
    rw [hWF.empty_of_not_init hinit] at hp
    simp at hp
  | some w =>
    rw [hw] at hp
    have hi : e.initialized = true := hWF.world_iff.mp (by rw [hw]; rfl)
    rw [hi] at hp ⊢
    simp only [Bool.not_true, Bool.false_eq_true, if_false] at hp ⊢
    obtain ⟨q, hq, hqe⟩ := List.mem_map.mp hp
    obtain ⟨rb0, hrb0⟩ :=
      Option.isSome_iff_exists.mp (hWF.handles_valid w hw q hq)
    have hlk : (w.stepWith f).rigidBodies.lookup q.2.rigidBody
        = some (f q.2.rigidBody rb0) := by
      simp only [World.stepWith]
      rw [lookup_map_update, hrb0]
      rfl
    subst hqe
    refine ⟨w.stepWith f, f q.2.rigidBody rb0, rfl, ?_, ?_, ?_⟩
    · simp only [hlk]
    · simp only [hlk]
    · simp only [hlk]

/-- C8: For every `bodyId` not present in the body map, `getVelocity` and
`getPosition` return `null`, and `setVelocity`, `setPosition`,
`setAngularVelocity`, `addImpulse` and `removeBody` leave the engine
state — body map, world and all registered bodies — unchanged.  All of
them are total functions of the state: none throws. -/
theorem claim_C8_absent_body_noops
    (e : PhysicsEngine) (bodyId : Nat)
    (h : e.bodies.lookup bodyId = none) :
    e.getVelocity bodyId = none ∧
    e.getPosition bodyId = none ∧
    (∀ v, e.setVelocity bodyId v = e) ∧
    (∀ p, e.setPosition bodyId p = e) ∧
    (∀ v, e.setAngularVelocity bodyId v = e) ∧
    (∀ i, e.addImpulse bodyId i = e) ∧
    e.removeBody bodyId = e := by
  refine ⟨?_, ?_, ?_, ?_, ?_, ?_, ?_⟩
  · unfold PhysicsEngine.getVelocity
    rw [h]
  · unfold PhysicsEngine.getPosition
    rw [h]
  · intro v
    unfold PhysicsEngine.setVelocity
    rw [h]
  · intro p
    unfold PhysicsEngine.setPosition
    rw [h]
  · intro v
    unfold PhysicsEngine.setAngularVelocity
    rw [h]
  · intro i
    unfold PhysicsEngine.addImpulse
    rw [h]
  · unfold PhysicsEngine.removeBody
    rw [h]

/-- C9: Body ids handed out by the engine are fresh and unique: every
successful `addStaticBox` / `addDynamicSphere` on a reachable engine
returns `nextBodyId`, which is strictly greater than every id currently
in the map (so no registered body is silently replaced), bumps
`nextBodyId` — which no operation ever decreases, so later adds return
strictly greater ids — and the returned id maps to the newly created
body. -/
theorem claim_C9_fresh_unique_ids
    (e : PhysicsEngine) (hR : PhysicsEngine.Reachable e) :
    (∀ mesh position size e' id,
        e.addStaticBox mesh position size = .ok (e', id) →
        id = e.nextBodyId ∧ e'.nextBodyId = id + 1 ∧
        (∀ p ∈ e.bodies, p.1 < id) ∧
        e.bodies.lookup id = none ∧
        ∃ handle, e'.bodies.lookup id =
          some { rigidBody := handle, mesh := mesh, id := id }) ∧
    (∀ mesh position radius mass restitution e' id,
        e.addDynamicSphere mesh position radius mass restitution = .ok (e', id) →
        id = e.nextBodyId ∧ e'.nextBodyId = id + 1 ∧
        (∀ p ∈ e.bodies, p.1 < id) ∧
        e.bodies.lookup id = none ∧
        ∃ handle, e'.bodies.lookup id =
          some { rigidBody := handle, mesh := mesh, id := id }) ∧
    (∀ e', PhysicsEngine.Step e e' → e.nextBodyId ≤ e'.nextBodyId) := by
  have hWF := PhysicsEngine.wf_reachable hR
  have habsent : e.bodies.lookup e.nextBodyId = none := by
    rw [lookup_eq_none_iff]
    intro hmem
    obtain ⟨q, hq, hqk⟩ := List.mem_map.mp hmem
    exact absurd (hqk ▸ hWF.ids_lt q hq) (lt_irrefl _)
  refine ⟨?_, ?_, fun e' hstep => PhysicsEngine.nextBodyId_mono hstep⟩
  · intro mesh position size e' id hadd
    obtain ⟨hid, hnext, w, hw, hbodies⟩ := PhysicsEngine.addStaticBox_ok_next hadd
    subst hid
    refine ⟨rfl, hnext, hWF.ids_lt, habsent, w.nextHandle, ?_⟩
    rw [hbodies, lookup_append_right _ habsent]
    simp [List.lookup]
  · intro mesh position radius mass restitution e' id hadd
    obtain ⟨hid, hnext, w, hw, hbodies⟩ := PhysicsEngine.addDynamicSphere_ok_next hadd
    subst hid
    refine ⟨rfl, hnext, hWF.ids_lt, habsent, w.nextHandle, ?_⟩
    rw [hbodies, lookup_append_right _ habsent]
    simp [List.lookup]

/-- C2: The collision phase follows the fixed cycle setup → physics →
cleanup → repeat: in every reachable state the phase is never `'firing'`,
and `advancePhase` maps `'setup'` to `'physics'`, `'physics'` to
`'cleanup'`, and `'cleanup'` back to `'setup'` via a new cycle; no other
transition occurs. -/
theorem claim_C2_phase_cycle
    (s : ThreeSceneC) (hR : ThreeSceneC.Reachable s) (now : Int) :
    s.collisionPhase ≠ .firing ∧
    (s.collisionPhase = .setup →
      (s.advancePhase now).collisionPhase = .physics) ∧
    (s.collisionPhase = .physics →
      (s.advancePhase now).collisionPhase = .cleanup) ∧
    (s.collisionPhase = .cleanup →
      (s.advancePhase now).collisionPhase = .setup ∧
      (s.advancePhase now).currentCycleNumber = s.currentCycleNumber + 1) := by
  refine ⟨ThreeSceneC.reachable_ne_firing hR, ?_, ?_, ?_⟩
  · intro h
    unfold ThreeSceneC.advancePhase
    rw [h]
  · intro h
    unfold ThreeSceneC.advancePhase
    rw [h]
  · intro h
    unfold ThreeSceneC.advancePhase
    rw [h]
    exact ⟨rfl, rfl⟩

/-- C3: Each phase is time-boxed by the fixed per-phase duration (setup
500 ms, firing 0 ms, physics 8000 ms, cleanup 1000 ms): in every update
that passes the loaded/initialized guard, the phase is advanced — and the
phase start time reset to the current time — exactly when the elapsed
time since the phase started reaches the current phase's recorded
duration; otherwise phase and start time are untouched. -/
theorem claim_C3_time_boxed_phases
    (s : ThreeSceneC) (now : Int)
    (hl : s.isLoaded = true) (hp : s.physicsInitialized = true) :
    (phaseDurationsTable.lookup Phase.setup = some 500 ∧
     phaseDurationsTable.lookup Phase.firing = some 0 ∧
     phaseDurationsTable.lookup Phase.physics = some 8000 ∧
     phaseDurationsTable.lookup Phase.cleanup = some 1000) ∧
    ∀ d, phaseDurationsTable.lookup s.collisionPhase = some d →
      (now - s.phaseStartTime ≥ d →
        s.updatePhysics now = s.advancePhase now ∧
        (s.updatePhysics now).phaseStartTime = now ∧
        (s.updatePhysics now).collisionPhase ≠ s.collisionPhase) ∧
      (now - s.phaseStartTime < d →
        (s.updatePhysics now).collisionPhase = s.collisionPhase ∧
        (s.updatePhysics now).phaseStartTime = s.phaseStartTime) := by
  refine ⟨by refine ⟨?_, ?_, ?_, ?_⟩ <;> rfl, ?_⟩
  intro d hd
  have hguard : (!s.isLoaded || !s.physicsInitialized) = false := by
    rw [hl, hp]
    rfl
  constructor
  · intro hge
    have hupd : s.updatePhysics now = s.advancePhase now := by
      unfold ThreeSceneC.updatePhysics
      rw [hguard]
      simp only [Bool.false_eq_true, if_false, hd]
      rw [if_pos hge]
    refine ⟨hupd, ?_, ?_⟩
    · rw [hupd]
      unfold ThreeSceneC.advancePhase ThreeSceneC.beginNewCycle
      cases s.collisionPhase <;> rfl
    · rw [hupd]
      unfold ThreeSceneC.advancePhase ThreeSceneC.beginNewCycle
      cases hc : s.collisionPhase <;> simp [hc]
  · intro hlt
    have hupd : s.updatePhysics now = s := by
      unfold ThreeSceneC.updatePhysics
      rw [hguard]
      simp only [Bool.false_eq_true, if_false, hd]
      rw [if_neg (not_le.mpr hlt)]
    rw [hupd]
    exact ⟨rfl, rfl⟩

/-- C4: The phase-duration lookup is never out of range by construction:
in every reachable state `collisionPhase` is one of the four keys
`'setup'`, `'firing'`, `'physics'`, `'cleanup'` of the `phaseDurations`
table, so the lookup performed by every update is defined. -/
theorem claim_C4_duration_lookup_total
    (s : ThreeSceneC) (hR : ThreeSceneC.Reachable s) :
    s.collisionPhase ∈ phaseDurationsTable.map Prod.fst ∧
    ∃ d, phaseDurationsTable.lookup s.collisionPhase = some d := by
  have := ThreeSceneC.reachable_ne_firing hR
  cases s.collisionPhase with
  | setup => exact ⟨by decide, 500, rfl⟩
  | firing => exact ⟨by decide, 0, rfl⟩
  | physics => exact ⟨by decide, 8000, rfl⟩
  | cleanup => exact ⟨by decide, 1000, rfl⟩

/-- Shared helper: on a failing fetch outcome, `fetchHistoricalData`
returns the empty list. -/
theorem fetchHistoricalData_failure {o : FetchOutcome} (h : o.isFailure = true) :
    LotteryAnalyzer.fetchHistoricalData o = [] := by
  cases o with
  | reject m => rfl
  | respond ok status data =>
    simp only [FetchOutcome.isFailure] at h
    simp only [LotteryAnalyzer.fetchHistoricalData, h, if_true]

/-- Shared helper: on a failing fetch outcome, `fetchLotteryData` runs its
catch block and then updates the loading bar. -/
theorem fetchLotteryData_failure (s : ThreeSceneD) {o : FetchOutcome}
    (nowISO : String) (h : o.isFailure = true) :
    s.fetchLotteryData o nowISO =
      { s.onFetchError nowISO with loadingProgress := some 80 } := by
  cases o with
  | reject m => rfl
  | respond ok status data =>
    simp only [FetchOutcome.isFailure] at h
    simp only [ThreeSceneD.fetchLotteryData, h, if_true]

/-- C5 counterexample: the claim says no public operation of the physics
adapter re-throws or returns an error to its caller on failure, but
`PhysicsEngine.init` re-throws the initialization failure: on a fresh
engine whose `RAPIER.init()` fails, `init` propagates the error. -/
theorem claim_C5_counterexample_init_rethrows :
    PhysicsEngine.mk0.init false =
      .error "Failed to initialize physics engine" := rfl

/-- C5 (amended): failures in the lottery analyzer and the lottery scene
are caught locally and replaced by fallbacks — `fetchHistoricalData`
returns `[]` and `fetchLotteryData` installs the demo data; neither
propagates an error.  The physics adapter is the exception: `init`
re-throws its initialization error, and `addStaticBox` /
`addDynamicSphere` throw when the engine is not initialized. -/
theorem claim_C5_amended_error_containment :
    (∀ o : FetchOutcome, o.isFailure = true →
        LotteryAnalyzer.fetchHistoricalData o = []) ∧
    (∀ (s : ThreeSceneD) (o : FetchOutcome) (nowISO : String),
        o.isFailure = true →
        s.fetchLotteryData o nowISO =
          { s.onFetchError nowISO with loadingProgress := some 80 }) ∧
    PhysicsEngine.mk0.init false =
      .error "Failed to initialize physics engine" ∧
    (∀ mesh position size,
        PhysicsEngine.mk0.addStaticBox mesh position size =
          .error "Physics engine not initialized") ∧
    (∀ mesh position radius mass restitution,
        PhysicsEngine.mk0.addDynamicSphere mesh position radius mass restitution =
          .error "Physics engine not initialized") :=
  ⟨fun _ h => fetchHistoricalData_failure h,
   fun s _ nowISO h => fetchLotteryData_failure s nowISO h,
   rfl, fun _ _ _ => rfl, fun _ _ _ _ _ => rfl⟩

/-- C5 witness: the amended claim at concrete failing inputs. -/
theorem claim_C5_amended_witness :
    LotteryAnalyzer.fetchHistoricalData (.reject "network down") = [] ∧
    ({} : ThreeSceneD).fetchLotteryData (.respond false 500 []) "2026-10-11" =
      { ({} : ThreeSceneD).onFetchError "2026-10-11" with loadingProgress := some 80 } :=
  ⟨claim_C5_amended_error_containment.1 (.reject "network down") rfl,
   claim_C5_amended_error_containment.2.1 {} (.respond false 500 []) "2026-10-11" rfl⟩

/-- C6: when the lottery fetch fails (rejects or non-ok status),
`fetchLotteryData` installs the hardcoded demo numbers
[13, 47, 52, 64, 67, 25], the current date and multiplier '2', refreshes
the balls and the UI, does not throw (it is a total function of the
outcome), and still updates the loading-bar progress (to 80). -/
theorem claim_C6_lottery_fallback
    (s : ThreeSceneD) (o : FetchOutcome) (nowISO : String)
    (h : o.isFailure = true) :
    (s.fetchLotteryData o nowISO).currentNumbers =
      [.int 13, .int 47, .int 52, .int 64, .int 67, .int 25] ∧
    (s.fetchLotteryData o nowISO).drawDate = nowISO ∧
    (s.fetchLotteryData o nowISO).multiplier = "2" ∧
    (s.fetchLotteryData o nowISO).ballNumbersUpdated = true ∧
    (s.fetchLotteryData o nowISO).uiUpdated = true ∧
    (s.fetchLotteryData o nowISO).loadingProgress = some 80 := by
  rw [fetchLotteryData_failure s nowISO h]
  exact ⟨rfl, rfl, rfl, rfl, rfl, rfl⟩

/-- C6 witness: the fallback behaviour at a concrete rejected fetch. -/
theorem claim_C6_witness :
    (FetchOutcome.reject "api unreachable").isFailure = true ∧
    (({} : ThreeSceneD).fetchLotteryData (.reject "api unreachable")
        "2026-10-11T00:00:00.000Z").currentNumbers =
      [.int 13, .int 47, .int 52, .int 64, .int 67, .int 25] :=
  ⟨rfl, (claim_C6_lottery_fallback {} (.reject "api unreachable")
      "2026-10-11T00:00:00.000Z" rfl).1⟩

/-- C7 counterexample: the claim says a default cube is substituted when
the ship model fails to load in the arcade shooter, but the fallback ship
geometry is a cone (`ConeGeometry(0.8, 2.5, 3)`), not a cube of any
size. -/
theorem claim_C7_counterexample_fallback_not_cube :
    (ThreeSceneE.loadShip false true 1).usedFallback = true ∧
    (ThreeSceneE.loadShip false true 1).ship.hullGeometry =
      .cone (4/5) (5/2) 3 ∧
    (ThreeSceneE.loadShip false true 1).ship.hullGeometry.isBox = false := by
  refine ⟨rfl, rfl, rfl⟩

/-- C7 (amended): when the ship model fails to load in the arcade
shooter, fallback geometry appears in its place — a cone-hulled ship with
thrusters is substituted (and a spawned asteroid without the asteroid
model falls back to icosahedron geometry), the scene continues
(`createAsteroids` is still invoked, creating `5 + level * 2` asteroids
whenever the asteroid model is available), and the failure is only
logged; nothing is re-thrown. -/
theorem claim_C7_amended_fallback_geometry
    (asteroidModelLoaded : Bool) (level : Nat) (position : Vec3) (size : ℚ) :
    (ThreeSceneE.loadShip false asteroidModelLoaded level).usedFallback = true ∧
    (ThreeSceneE.loadShip false asteroidModelLoaded level).ship =
      ThreeSceneE.createFallbackShip ∧
    ThreeSceneE.createFallbackShip.hullGeometry = .cone (4/5) (5/2) 3 ∧
    (ThreeSceneE.loadShip false asteroidModelLoaded level).errorLogged = true ∧
    (ThreeSceneE.loadShip false asteroidModelLoaded level).asteroidsSpawned =
      ThreeSceneE.createAsteroids asteroidModelLoaded level ∧
    (asteroidModelLoaded = true →
      (ThreeSceneE.loadShip false asteroidModelLoaded level).asteroidsSpawned =
        5 + level * 2) ∧
    (ThreeSceneE.createAsteroidAt false position size).geometry =
      .icosahedron (size * (7/10)) 1 := by
  refine ⟨rfl, rfl, rfl, rfl, rfl, ?_, rfl⟩
  intro h
  subst h
  rfl

/-- C7 witness: the amended claim at a concrete failed ship load with the
asteroid model available. -/
theorem claim_C7_amended_witness :
    (ThreeSceneE.loadShip false true 2).asteroidsSpawned = 5 + 2 * 2 ∧
    (ThreeSceneE.createAsteroidAt false ⟨0, 0, 0⟩ 3).geometry =
      .icosahedron (3 * (7/10)) 1 := by
  have h := claim_C7_amended_fallback_geometry true 2 ⟨0, 0, 0⟩ 3
  exact ⟨h.2.2.2.2.2.1 rfl, h.2.2.2.2.2.2⟩

/-! ### Concrete engine states used by the witnesses -/

/-- A mesh at the origin. -/
def wMesh : Mesh := { position := ⟨0, 0, 0⟩, quaternion := Quat.identity }

/-- The engine right after a successful `init()`. -/
def wEngine1 : PhysicsEngine :=
  { world := some { gravity := ⟨0, -2, 0⟩, rigidBodies := [], colliders := [],
                    nextHandle := 0 },
    bodies := [], nextBodyId := 0, initialized := true }

/-- `wEngine1` after one `addDynamicSphere(mesh, (1,2,3), 1/4, 1, 9/10)`. -/
def wEngine2 : PhysicsEngine :=
  { world := some
      { gravity := ⟨0, -2, 0⟩,
        rigidBodies := [(0, { bodyType := .dynamic, translation := ⟨1, 2, 3⟩,
                              rotation := Quat.identity, linvel := ⟨0, 0, 0⟩,
                              angvel := ⟨0, 0, 0⟩ })],
        colliders := [{ shape := .ball (1/4), parent := 0, mass := some 1,
                        restitution := some (9/10), friction := some (3/10) }],
        nextHandle := 1 },
    bodies := [(0, { rigidBody := 0, mesh := wMesh, id := 0 })],
    nextBodyId := 1, initialized := true }

theorem wEngine1_reachable : PhysicsEngine.Reachable wEngine1 :=
  Relation.ReflTransGen.single
    (PhysicsEngine.Step.init PhysicsEngine.mk0 wEngine1 true rfl)

theorem wEngine2_reachable : PhysicsEngine.Reachable wEngine2 :=
  wEngine1_reachable.tail
    (PhysicsEngine.Step.addDynamicSphere wEngine1 wEngine2 wMesh ⟨1, 2, 3⟩
      (1/4) 1 (9/10) 0 rfl)

/-- A sample integrator: the physics tick moves every body to (5,5,5). -/
def wIntegrator : Nat → RigidBody → RigidBody :=
  fun _ rb => { rb with translation := ⟨5, 5, 5⟩ }

/-- The body entry of `wEngine2` after one `step` under `wIntegrator`. -/
def wSteppedPair : Nat × PhysicsBody :=
  (0, { rigidBody := 0,
        mesh := { position := ⟨5, 5, 5⟩, quaternion := Quat.identity },
        id := 0 })

/-- C1 witness: after stepping a reachable two-body-free engine holding
one dynamic sphere, the registered body's mesh transform equals the
post-step rigid-body transform. -/
theorem claim_C1_witness :
    ∃ w rb,
      (wEngine2.step (1/60) wIntegrator).world = some w ∧
      w.rigidBodies.lookup wSteppedPair.2.rigidBody = some rb ∧
      wSteppedPair.2.mesh.position = rb.translation ∧
      wSteppedPair.2.mesh.quaternion = rb.rotation :=
  claim_C1_step_overwrites_mesh_transforms wEngine2 wEngine2_reachable (1/60)
    wIntegrator wSteppedPair (by decide)

/-- C2 witness: from the reachable initial state (phase `'setup'`),
`advancePhase` moves to `'physics'`. -/
theorem claim_C2_witness :
    ThreeSceneC.mk0.collisionPhase = .setup ∧
    (ThreeSceneC.mk0.advancePhase 5).collisionPhase = .physics :=
  ⟨rfl, (claim_C2_phase_cycle ThreeSceneC.mk0 Relation.ReflTransGen.refl 5).2.1 rfl⟩

/-- A loaded, physics-initialized scene state in the setup phase. -/
def wSceneC : ThreeSceneC :=
  { collisionPhase := .setup, phaseStartTime := 0, currentCycleNumber := 1,
    isLoaded := true, physicsInitialized := true }

/-- C3 witness: at 600 ms into the 500 ms setup phase, the update advances
the phase and resets the start time. -/
theorem claim_C3_witness :
    wSceneC.updatePhysics 600 = wSceneC.advancePhase 600 ∧
    (wSceneC.updatePhysics 600).phaseStartTime = 600 := by
  have h := ((claim_C3_time_boxed_phases wSceneC 600 rfl rfl).2 500 rfl).1 (by decide)
  exact ⟨h.1, h.2.1⟩

/-- C4 witness: the initial reachable state's phase is a key of the
duration table. -/
theorem claim_C4_witness :
    ThreeSceneC.mk0.collisionPhase ∈ phaseDurationsTable.map Prod.fst ∧
    ∃ d, phaseDurationsTable.lookup ThreeSceneC.mk0.collisionPhase = some d :=
  claim_C4_duration_lookup_total ThreeSceneC.mk0 Relation.ReflTransGen.refl

/-- C8 witness: body id 5 is absent from `wEngine2`; the getters return
`null` and `removeBody` is a no-op there. -/
theorem claim_C8_witness :
    wEngine2.bodies.lookup 5 = none ∧
    wEngine2.getVelocity 5 = none ∧
    wEngine2.removeBody 5 = wEngine2 := by
  have h := claim_C8_absent_body_noops wEngine2 5 (by decide)
  exact ⟨by decide, h.1, h.2.2.2.2.2.2⟩

/-- C9 witness: the add on the reachable fresh engine returns id 0 =
`nextBodyId`, bumps `nextBodyId` to 1, and id 0 maps to the new body. -/
theorem claim_C9_witness :
    (0 : Nat) = wEngine1.nextBodyId ∧
    wEngine2.nextBodyId = 0 + 1 ∧
    wEngine1.bodies.lookup 0 = none ∧
    ∃ handle, wEngine2.bodies.lookup 0 =
      some { rigidBody := handle, mesh := wMesh, id := 0 } := by
  obtain ⟨h1, h2, h3, h4, h5⟩ :=
    (claim_C9_fresh_unique_ids wEngine1 wEngine1_reachable).2.1 wMesh ⟨1, 2, 3⟩
      (1/4) 1 (9/10) wEngine2 0 rfl
  exact ⟨h1, h2, h4, h5⟩

namespace ShaderManager

/-- The state after the lazy `init()` that every public entry point
performs. -/
def initState : SMState := init empty

/-- Every registry cell address is allocated in the initial state. -/
theorem initState_regW_present :
    ∀ a ∈ regWAddrs initState, (initState.wrappers.lookup a).isSome := by decide

/-- Every registry value-object address is allocated in the initial
state. -/
theorem initState_regO_present :
    ∀ a ∈ regOAddrs initState, (initState.objs.lookup a).isSome := by decide

/-- Checkable form of: the structure returned by `find` lives at addresses
disjoint from the registry's. -/
def findDisjointOKb (s : SMState) (name : String) : Bool :=
  match find s name with
  | .error _ => true
  | .ok (d, s₁) =>
    decide ((∀ a ∈ defWrapperAddrs d, a ∉ regWAddrs s) ∧
            (∀ a ∈ defObjAddrs s₁ d, a ∉ regOAddrs s))

/-- A name found in the registry is one of the four registered names. -/
theorem names_of_found {name : String} {sh : ShaderDef}
    (hlk : initState.shaders.lookup name = some sh) :
    name = "skyEnvironment" ∨ name = "clouds" ∨ name = "terrain" ∨
      name = "shield" := by
  have hmem : name ∈ initState.shaders.map Prod.fst :=
    List.mem_map.mpr ⟨(name, sh), mem_of_lookup_eq_some hlk, rfl⟩
  have hkeys : initState.shaders.map Prod.fst =
      ["skyEnvironment", "clouds", "terrain", "shield"] := rfl
  rw [hkeys] at hmem
  simpa using hmem

theorem findDisjoint_of_found {name : String} {sh : ShaderDef}
    (hlk : initState.shaders.lookup name = some sh) :
    findDisjointOKb initState name = true := by
  rcases names_of_found hlk with rfl | rfl | rfl | rfl <;> decide

/-- `find` throws exactly on the names missing from the table. -/
theorem find_error_iff (s : SMState) (hs : s.initialized = true) (name : String) :
    (∃ m, find s name = .error m) ↔ s.shaders.lookup name = none := by
  unfold find
  rw [if_pos hs]
  dsimp only
  cases hlk : s.shaders.lookup name with
  | none => simp
  | some sh => simp

theorem found_of_find_ok {name : String} {d : ShaderDef} {s₁ : SMState}
    (h : find initState name = .ok (d, s₁)) :
    ∃ sh, initState.shaders.lookup name = some sh := by
  cases hlk : initState.shaders.lookup name with
  | none =>
    obtain ⟨m, hm⟩ := (find_error_iff initState rfl name).mpr hlk
    rw [hm] at h
    simp at h
  | some sh => exact ⟨sh, rfl⟩

/-- After a successful `find` on the initialized manager, any chain of
client-side mutations of the returned structure leaves every registered
shader's observable defaults unchanged. -/
theorem find_ok_writes_safe {name : String} {d : ShaderDef} {s₁ : SMState}
    (h : find initState name = .ok (d, s₁)) {s₂ : SMState}
    (hw : ClientWrites d s₁ s₁ s₂) (n : String) :
    registryDefaults s₂ n = registryDefaults initState n := by
  obtain ⟨sh, hlk⟩ := found_of_find_ok h
  have hdb : findDisjointOKb initState name = true := findDisjoint_of_found hlk
  unfold findDisjointOKb at hdb
  rw [h] at hdb
  obtain ⟨hW, hO⟩ := of_decide_eq_true hdb
  have hintact1 : RegistryIntact initState s₁ :=
    find_ok_intact rfl initState_regW_present initState_regO_present h
  have hintact2 : RegistryIntact initState s₂ :=
    intact_clientWrites hW hO hw hintact1
  exact registryDefaults_of_intact hintact2 n

/-- The concrete result of `find initState "skyEnvironment"`. -/
def findResultSky : ShaderDef × SMState :=
  ({ vertexShader := "skyEnvironment.vert",
     fragmentShader := "skyEnvironment.frag",
     uniforms := [("skyTexture", 16), ("topColor", 18), ("bottomColor", 20),
                  ("offset", 21), ("exponent", 22)] },
   { initState with
       wrappers := initState.wrappers ++
         [(16, .null), (18, .obj 17), (20, .obj 19), (21, .num 400),
          (22, .num (3/5))],
       objs := initState.objs ++
         [(17, { kind := .color, data := [0, 119/255, 1] }),
          (19, { kind := .color, data := [1, 1, 1] })],
       nextAddr := 23 })

/-- The concrete result of `find initState "clouds"`. -/
def findResultClouds : ShaderDef × SMState :=
  ({ vertexShader := "clouds.vert", fragmentShader := "clouds.frag",
     uniforms := [("cameraPosition", 17)] },
   { initState with
       wrappers := initState.wrappers ++ [(17, .obj 16)],
       objs := initState.objs ++ [(16, { kind := .vec3, data := [0, 0, 0] })],
       nextAddr := 18 })

/-- The concrete result of `find initState "terrain"`. -/
def findResultTerrain : ShaderDef × SMState :=
  ({ vertexShader := "terrain.vert", fragmentShader := "terrain.frag",
     uniforms := [("diffuseMap", 16), ("normalMap", 17), ("lightDirection", 19)] },
   { initState with
       wrappers := initState.wrappers ++
         [(16, .null), (17, .null), (19, .obj 18)],
       objs := initState.objs ++ [(18, { kind := .vec3, data := [1, 1, 1] })],
       nextAddr := 20 })

/-- The concrete result of `find initState "shield"`. -/
def findResultShield : ShaderDef × SMState :=
  ({ vertexShader := "shield.vert", fragmentShader := "shield.frag",
     uniforms := [("opacity", 16), ("color", 18)] },
   { initState with
       wrappers := initState.wrappers ++ [(16, .num (1/2)), (18, .obj 17)],
       objs := initState.objs ++
         [(17, { kind := .color, data := [0, 170/255, 1] })],
       nextAddr := 19 })

/-- The copy returned by `find` resolves to the registry's defaults. -/
theorem find_ok_copy {name : String} {d : ShaderDef} {s₁ : SMState}
    (h : find initState name = .ok (d, s₁)) :
    registryDefaults initState name =
      some (d.uniforms.map (fun kv => (kv.1, resolveWrapper s₁ kv.2))) := by
  obtain ⟨sh, hlk⟩ := found_of_find_ok h
  rcases names_of_found hlk with rfl | rfl | rfl | rfl
  · rw [show find initState "skyEnvironment" =
        .ok (findResultSky.1, findResultSky.2) from rfl] at h
    simp only [Except.ok.injEq, Prod.mk.injEq] at h
    obtain ⟨hd, hs⟩ := h
    subst hd; subst hs
    rfl
  · rw [show find initState "clouds" =
        .ok (findResultClouds.1, findResultClouds.2) from rfl] at h
    simp only [Except.ok.injEq, Prod.mk.injEq] at h
    obtain ⟨hd, hs⟩ := h
    subst hd; subst hs
    rfl
  · rw [show find initState "terrain" =
        .ok (findResultTerrain.1, findResultTerrain.2) from rfl] at h
    simp only [Except.ok.injEq, Prod.mk.injEq] at h
    obtain ⟨hd, hs⟩ := h
    subst hd; subst hs
    rfl
  · rw [show find initState "shield" =
        .ok (findResultShield.1, findResultShield.2) from rfl] at h
    simp only [Except.ok.injEq, Prod.mk.injEq] at h
    obtain ⟨hd, hs⟩ := h
    subst hd; subst hs
    rfl

/-- `createMaterial`'s override mutations leave the registry unchanged. -/
theorem createMaterial_registry_safe {name : String}
    {ov : List (String × UniformValue)} {m : ShaderMaterial} {s₂ : SMState}
    (h : createMaterial initState name ov = .ok (m, s₂)) (n : String) :
    registryDefaults s₂ n = registryDefaults initState n := by
  unfold createMaterial at h
  cases hf : find initState name with
  | error e => rw [hf] at h; simp at h
  | ok p =>
    rcases p with ⟨d, s₁⟩
    rw [hf] at h
    dsimp only at h
    simp only [Except.ok.injEq, Prod.mk.injEq] at h
    obtain ⟨-, hs2⟩ := h
    subst hs2
    exact find_ok_writes_safe hf (override_fold_clientWrites d s₁ ov s₁) n

end ShaderManager

/-- C10: `ShaderManager.find` returns a copy of the stored definition:
the copy's uniforms resolve to the registry's default values; any
client-side mutation of the returned uniforms — assigning cell values
(as `createMaterial`'s `overrideUniforms` does) or mutating reachable
value objects — leaves every registry entry's observable defaults
unchanged, so a subsequent `find` reads the same default uniform values;
and `find` throws exactly for a name not in the table. -/
theorem claim_C10_find_returns_safe_copy :
    (∀ name : String,
      (∃ m, ShaderManager.find ShaderManager.initState name = .error m) ↔
        ShaderManager.initState.shaders.lookup name = none) ∧
    (∀ name d s₁,
      ShaderManager.find ShaderManager.initState name = .ok (d, s₁) →
      ShaderManager.registryDefaults ShaderManager.initState name =
        some (d.uniforms.map
          (fun kv => (kv.1, ShaderManager.resolveWrapper s₁ kv.2))) ∧
      ∀ s₂, ShaderManager.ClientWrites d s₁ s₁ s₂ →
        ∀ n, ShaderManager.registryDefaults s₂ n =
          ShaderManager.registryDefaults ShaderManager.initState n) ∧
    (∀ name ov m s₂,
      ShaderManager.createMaterial ShaderManager.initState name ov = .ok (m, s₂) →
      ∀ n, ShaderManager.registryDefaults s₂ n =
        ShaderManager.registryDefaults ShaderManager.initState n) :=
  ⟨fun name => ShaderManager.find_error_iff ShaderManager.initState rfl name,
   fun _ _ _ h =>
     ⟨ShaderManager.find_ok_copy h,
      fun _ hw n => ShaderManager.find_ok_writes_safe h hw n⟩,
   fun _ _ _ _ h n => ShaderManager.createMaterial_registry_safe h n⟩

/-- C10 witness: a concrete `find` of the shield shader, followed by the
client assigning `opacity.value`, leaves the registry's observable
defaults for `"shield"` unchanged. -/
theorem claim_C10_witness :
    ShaderManager.find ShaderManager.initState "shield" =
      .ok (ShaderManager.findResultShield.1, ShaderManager.findResultShield.2) ∧
    ShaderManager.registryDefaults
        (ShaderManager.setWrapper ShaderManager.findResultShield.2 16 (UniformValue.num 1))
        "shield" =
      ShaderManager.registryDefaults ShaderManager.initState "shield" := by
  have hchain : ShaderManager.ClientWrites ShaderManager.findResultShield.1 ShaderManager.findResultShield.2
      ShaderManager.findResultShield.2 (ShaderManager.setWrapper ShaderManager.findResultShield.2 16 (UniformValue.num 1)) :=
    Relation.ReflTransGen.single
      (Or.inl ⟨16, by decide, UniformValue.num 1, rfl⟩)
  exact ⟨rfl,
    ((claim_C10_find_returns_safe_copy.2.1 "shield" ShaderManager.findResultShield.1 ShaderManager.findResultShield.2
        rfl).2 _ hchain "shield")⟩

end ThreeExamples
